import Mathlib

/-!
Verification development for the avito_monitor repository.

The Python sources (`avito_api.py`, `monitor_service.py`, `config.py`) are
shallowly embedded below.  Dynamic Python values that flow through the chat
pipeline are modelled by the inductive type `PyVal`; Python exceptions are
modelled with `Except`; machine state (`processed_message_ids`,
`sent_replies`, statistics) is passed explicitly.  Network I/O is modelled by
explicit environment parameters giving the outcome of each remote call.
Wall-clock timestamps and log formatting are carried only where a claim
depends on them; timestamp rendering (`_process_timestamps` string
formatting) is modelled as the identity on the chat list, which preserves
list length and element identity (the only facts the claims use).
-/

namespace AvitoMonitor

/-! ## Configuration constants (config.py) -/

def AUTO_REPLY_MESSAGE : String := "Напишите мне в Telegram для быстрого ответа: @mr0js"

def CHECK_INTERVAL : Nat := 30

def MAX_CHATS : Nat := 200

def BATCH_SIZE : Nat := 50

/-- config.py SYSTEM_MESSAGES: phrases marking a system message. -/
def SYSTEM_MESSAGES : List String :=
  ["перейдите на подписку с api мессенджера",
   "подписка с api мессенджера",
   "чтобы получить доступ к чатам",
   "api мессенджера",
   "подписка api мессенджера"]

/-! ## Python value model -/

/-- Dynamic Python/JSON values as they flow through the chat pipeline. -/
inductive PyVal where
  | none
  | bool (b : Bool)
  | int (n : Int)
  | str (s : String)
  | list (xs : List PyVal)
  | dict (entries : List (String × PyVal))

/-- Python truthiness of a value (`if v:`). -/
def truthy : PyVal → Bool
  | .none => false
  | .bool b => b
  | .int n => n ≠ 0
  | .str s => s ≠ ""
  | .list xs => !xs.isEmpty
  | .dict es => !es.isEmpty

/-- Lookup in a Python dict (`d.get(k, dflt)`); keys in a dict are unique,
so first-match lookup is faithful. -/
def pyGetD (es : List (String × PyVal)) (k : String) (dflt : PyVal) : PyVal :=
  match es with
  | [] => dflt
  | (k', v) :: rest => if k' = k then v else pyGetD rest k dflt

/-- `v.get(k, dflt)`: raises AttributeError when `v` is not a dict. -/
def PyVal.getE (v : PyVal) (k : String) (dflt : PyVal) : Except Unit PyVal :=
  match v with
  | .dict es => .ok (pyGetD es k dflt)
  | _ => .error ()

/-- `k in v` for a dict `v` (only used on dicts in the source). -/
def pyHasKey (es : List (String × PyVal)) (k : String) : Bool :=
  match es with
  | [] => false
  | (k', _) :: rest => k' = k || pyHasKey rest k

/-- Python `v == "s"` where the right operand is a string literal. -/
def pyEqStr (v : PyVal) (s : String) : Bool :=
  match v with
  | .str t => t = s
  | _ => false

/-- Python `str(v)`.  Exact for None/bool/int/str (the cases the source
feeds into ids); container values get an abbreviated non-empty rendering
(Python's rendering is also never empty). -/
def pyStr : PyVal → String
  | .none => "None"
  | .bool true => "True"
  | .bool false => "False"
  | .int n => toString n
  | .str s => s
  | .list _ => "[...]"
  | .dict _ => "{...}"

/-- Whitespace stripping on both ends of a character list. -/
def stripChars (l : List Char) : List Char :=
  ((l.dropWhile Char.isWhitespace).reverse.dropWhile Char.isWhitespace).reverse

/-- `s.strip()` for a string (ASCII whitespace; the source data never
contains the exotic Unicode spaces where Python would differ). -/
def pyStripStr (s : String) : String := String.mk (stripChars s.toList)

/-- Python `v.strip()`: defined for strings, raises otherwise. -/
def pyStrip (v : PyVal) : Except Unit String :=
  match v with
  | .str s => .ok (pyStripStr s)
  | _ => .error ()

/-- Python `a or b` (value-level, used for `get('name') or get('title')`). -/
def pyOr (a b : PyVal) : PyVal := if truthy a then a else b

/-- Lowercasing covering ASCII and the Cyrillic block used by
SYSTEM_MESSAGES (Python `str.lower()` restricted to the scripts the
monitored data uses). -/
def ruCharLower (c : Char) : Char :=
  if 'A' ≤ c ∧ c ≤ 'Z' then Char.ofNat (c.toNat + 32)
  else if 'А' ≤ c ∧ c ≤ 'Я' then Char.ofNat (c.toNat + 32)
  else if c = 'Ё' then 'ё'
  else c

def ruLower (s : String) : String := String.mk (s.toList.map ruCharLower)

/-- Exact list matching from the front. -/
def listStartsWith : List Char → List Char → Bool
  | [], _ => true
  | _ :: _, [] => false
  | a :: as, b :: bs => a = b && listStartsWith as bs

/-- Substring containment, Python `needle in hay` for strings. -/
def listContainsSub (needle : List Char) : List Char → Bool
  | [] => listStartsWith needle []
  | l@(_ :: t) => listStartsWith needle l || listContainsSub needle t

def strContainsSub (hay needle : String) : Bool :=
  listContainsSub needle.toList hay.toList

/-! ## is_system_message (avito_api.py lines 189-205) -/

/-- `is_system_message(text)`; raises (models `text.lower()`) when `text`
is truthy but not a string. -/
def isSystemMessage (text : PyVal) : Except Unit Bool :=
  if ¬ truthy text then .ok false
  else
    match text with
    | .str s => .ok (SYSTEM_MESSAGES.any (fun p => strContainsSub (ruLower s) p))
    | _ => .error ()

/-! ## extract_user_name (avito_api.py lines 207-245) -/

/-- The scan over `chat_data['users']`: first user dict whose `name` field
is truthy with truthy strip is returned; a truthy non-string `name` raises
(`name.strip()` on a non-string). -/
def firstUserNameE : List PyVal → Except Unit (Option String)
  | [] => .ok Option.none
  | u :: us =>
    match u with
    | .dict ud =>
      let nm := pyGetD ud "name" (.dict [])
      if truthy nm then
        match pyStrip nm with
        | .error e => .error e
        | .ok s => if s ≠ "" then .ok (some s) else firstUserNameE us
      else firstUserNameE us
    | _ => firstUserNameE us

/-- The `context` branch of the try block. -/
def contextNameE (d : List (String × PyVal)) : Except Unit (Option String) :=
  let context := pyGetD d "context" (.dict [])
  if truthy context then
    match context with
    | .dict ces =>
      let itemTitle := pyGetD ces "item_title" .none
      if truthy itemTitle then
        match pyStrip itemTitle with
        | .error e => .error e
        | .ok s => if s ≠ "" then .ok (some ("User from: " ++ s)) else .ok Option.none
      else .ok Option.none
    | _ => .error ()
  else .ok Option.none

/-- The `chat_name` branch (`get('name') or get('title')`) followed by the
context branch. -/
def chatNameE (d : List (String × PyVal)) : Except Unit (Option String) :=
  let chatName := pyOr (pyGetD d "name" .none) (pyGetD d "title" .none)
  if truthy chatName then
    match pyStrip chatName with
    | .error e => .error e
    | .ok s => if s ≠ "" then .ok (some s) else contextNameE d
  else contextNameE d

/-- Body of the try block of `extract_user_name`. -/
def extractTry (d : List (String × PyVal)) : Except Unit (Option String) :=
  let users := pyGetD d "users" (.list [])
  let fromUsers :=
    match users with
    | .list ul => if truthy users then firstUserNameE ul else .ok Option.none
    | _ => .ok Option.none
  match fromUsers with
  | .error e => .error e
  | .ok (some s) => .ok (some s)
  | .ok Option.none => chatNameE d

/-- Last eight characters of a string (`chat_id[-8:]`). -/
def lastChars (n : Nat) (s : String) : String :=
  String.mk (s.toList.drop (s.toList.length - n))

/-- Last-resort branch of `extract_user_name` (after the except handler). -/
def lastResortName (d : List (String × PyVal)) : String :=
  let chatId := pyStr (pyGetD d "id" (.str ""))
  if chatId ≠ "" ∧ chatId.length > 10 then "User_" ++ lastChars 8 chatId
  else "Unknown User"

/-- `extract_user_name(chat_data)` on a dict: the try body may raise
internally; both the fall-through and the except handler continue with the
chat-id last resort. -/
def extractUserName (d : List (String × PyVal)) : String :=
  match extractTry d with
  | .ok (some s) => s
  | _ => lastResortName d

/-- `extract_user_name` applied to an arbitrary value: on a non-dict the
try body raises at the first `.get` and the last-resort `.get` raises
again, uncaught — the call propagates an exception. -/
def extractUserNameE (v : PyVal) : Except Unit String :=
  match v with
  | .dict d => .ok (extractUserName d)
  | _ => .error ()

/-- The fallback chain exactly as the specification words it (claim C8):
(a) first non-empty participant name, (b) chat name/title, (c) item title
from context, (d) synthesized from the chat id, (e) "Unknown User".
Used only to compare the code's function against the spec. -/
def specUserNameFromUsers : List PyVal → Option String
  | [] => Option.none
  | u :: us =>
    match u with
    | .dict ud =>
      match pyGetD ud "name" (.dict []) with
      | .str s => if pyStripStr s ≠ "" then some (pyStripStr s) else specUserNameFromUsers us
      | _ => specUserNameFromUsers us
    | _ => specUserNameFromUsers us

def specUserNameRest (d : List (String × PyVal)) : String :=
  let ctxTitle :=
    match pyGetD d "context" (.dict []) with
    | .dict ces => pyGetD ces "item_title" .none
    | _ => .none
  match ctxTitle with
  | .str s =>
    if pyStripStr s ≠ "" then "User from: " ++ pyStripStr s
    else lastResortName d
  | _ => lastResortName d

def specUserName (d : List (String × PyVal)) : String :=
  let fromUsers :=
    match pyGetD d "users" (.list []) with
    | .list ul => specUserNameFromUsers ul
    | _ => Option.none
  match fromUsers with
  | some s => s
  | Option.none =>
    let nm := pyOr (pyGetD d "name" .none) (pyGetD d "title" .none)
    match nm with
    | .str s =>
      if pyStripStr s ≠ "" then pyStripStr s
      else specUserNameRest d
    | _ => specUserNameRest d

/-- Fields relevant to the fallback chain are well-typed: participant name
fields, name/title, context and item_title are strings or absent/falsy
values that the code skips without raising. -/
def userWellTyped (u : PyVal) : Bool :=
  match u with
  | .dict ud =>
    match pyGetD ud "name" (.dict []) with
    | .str _ => true
    | v => !truthy v
  | _ => true

def chatWellTyped (d : List (String × PyVal)) : Bool :=
  (match pyGetD d "users" (.list []) with
   | .list ul => ul.all userWellTyped
   | _ => true) &&
  (match pyOr (pyGetD d "name" .none) (pyGetD d "title" .none) with
   | .str _ => true
   | v => !truthy v) &&
  (match pyGetD d "context" (.dict []) with
   | .dict ces =>
     (match pyGetD ces "item_title" .none with
      | .str _ => true
      | v => !truthy v)
   | v => !truthy v)

/-! ## Monitor state (AvitoChatMonitor / AutoReplyManager fields)

`processed_message_ids` and `sent_replies` are Python sets of strings;
they are modelled as duplicate-free membership lists (`addId` inserts only
when absent, matching `set.add`).  `stats` carries the counters the claims
mention; wall-clock fields (`start_time`, `last_check`, timestamps inside
`last_user_names`) are omitted.  `errorLog` is a ghost field: it appends a
copy of every message stored into `last_error`, so that transient error
recording remains observable after `last_error` is overwritten. -/

structure Stats where
  totalChecks : Nat
  totalUnreadMessages : Nat
  totalAutoReplies : Nat
  totalSystemMessages : Nat
  totalRegularMessages : Nat
  lastUnreadCount : Nat
  lastError : Option String
  errorLog : List String
  lastUserNames : List (String × Bool)
deriving DecidableEq

structure MonitorState where
  autoReplyEnabled : Bool
  processedMessageIds : List String
  sentReplies : List String
  stats : Stats
deriving DecidableEq

/-- `set.add` on a set modelled as a list: insert only when absent. -/
def addId (x : String) (l : List String) : List String :=
  if x ∈ l then l else x :: l

/-- Store an error into `stats['last_error']` (plus the ghost log). -/
def recordError (msg : String) (st : MonitorState) : MonitorState :=
  { st with stats := { st.stats with
      lastError := some msg,
      errorLog := st.stats.errorLog ++ [msg] } }

/-! ## Token cache (get_access_token, avito_api.py lines 576-612 and 291-326;
both copies implement the same logic over their own cached fields). -/

structure TokenState where
  accessToken : Option String
  tokenExpires : Option Int

/-- Outcome of one POST to the token endpoint.  `expiresIn = Option.none`
models a response without the `expires_in` key (`.get` default 86400). -/
inductive TokenFetchOutcome where
  | ok (accessToken : String) (expiresIn : Option Int)
  | httpError (status : Nat)

/-- Python truthiness of the cached `access_token` field. -/
def tokenTruthy : Option String → Bool
  | some s => s ≠ ""
  | Option.none => false

/-- The network exchange: on success the new expiry is
`now + (expires_in - 300)` seconds; an HTTP error is re-raised. -/
def fetchToken (now : Int) (env : TokenFetchOutcome) : Except Nat (String × TokenState) :=
  match env with
  | .ok tok ei =>
      let expiresIn := ei.getD 86400
      .ok (tok, { accessToken := some tok, tokenExpires := some (now + (expiresIn - 300)) })
  | .httpError s => .error s

/-- `get_access_token(force_refresh)`: returns the cached token when not
forced, the cached token is truthy, an expiry is set, and `now` is before
it; otherwise performs exactly one exchange.  The second component counts
network calls performed. -/
def getAccessToken (st : TokenState) (forceRefresh : Bool) (now : Int)
    (env : TokenFetchOutcome) : Except Nat (String × TokenState) × Nat :=
  match st.tokenExpires with
  | some exp =>
      if ¬ forceRefresh ∧ tokenTruthy st.accessToken ∧ now < exp then
        (.ok (st.accessToken.getD "", st), 0)
      else (fetchToken now env, 1)
  | Option.none => (fetchToken now env, 1)

/-! ## _save_processed_ids trimming (avito_api.py lines 546-568)

The code serializes `list(self.processed_message_ids)` — the enumeration
order of a Python `set`, which is hash-based and unrelated to insertion
order — and keeps `[-1000:]` when longer than 1000. -/

/-- The persisted `processed_message_ids` list produced from one
enumeration `enum` of the in-memory set. -/
def savedProcessedIds (enum : List String) : List String :=
  if enum.length > 1000 then enum.drop (enum.length - 1000) else enum

/-- The most recent `1000` entries of the insertion history `ins`
(what claim C6 says the kept entries are). -/
def mostRecentIds (ins : List String) : List String :=
  ins.drop (ins.length - 1000)

/-- Claim C6's ordering property for one save: the kept entries are exactly
the most recent 1000 of the insertion history. -/
def keptAreMostRecent (ins enum : List String) : Prop :=
  ∀ x, x ∈ savedProcessedIds enum ↔ x ∈ mostRecentIds ins

/-! ## Scheduler sleep (monitor_service.py lines 150-162) -/

/-- `sleep_time` computed after a cycle: halved (floor, minimum 10) when the
just-completed cycle recorded unread messages, else the full interval. -/
def computeSleepTime (interval lastUnreadCount : Nat) : Nat :=
  if lastUnreadCount > 0 then max 10 (interval / 2) else interval

/-- The 1-second sleep loop `for i in range(n): if not running: break;
sleep(1)`: returns the number of whole seconds slept, where `running i`
is the RUNNING flag observed at the check before the i-th sleep. -/
def sleepLoop (running : Nat → Bool) : Nat → Nat → Nat
  | 0, _ => 0
  | k + 1, i => if running i then 1 + sleepLoop running k (i + 1) else 0

def sleepSeconds (n : Nat) (running : Nat → Bool) : Nat :=
  sleepLoop running n 0

/-! ## get_unread_messages (avito_api.py lines 679-769) -/

/-- One element of the returned unread-message list (the dict built at
lines 724-734).  `created`/`created_timestamp` keep the raw values. -/
structure UnreadMessage where
  chat_id : String
  message_id : String
  text : String
  created : PyVal
  created_timestamp : PyVal
  direction : String
  is_unread : Bool
  is_system : Bool
  user_name : String

/-- Outcome of one `get_chats` call.  `authError401` is an HTTP 401 from
the token endpoint (`get_access_token` records "Invalid credentials" and
re-raises; `get_chats` catches, records its own message, and returns an
empty chat list).  `fetchError` is any other failure caught by
`get_chats`. -/
inductive ChatsOutcome where
  | ok (chats : List PyVal)
  | authError401
  | fetchError (msg : String)

/-- `get_chats`: errors are caught, recorded, and degrade to `[]`.
`_process_timestamps` on a successful response is modelled as the identity
on the chat list (it maps the list elementwise, preserving length; the
string-formatted sibling fields it adds are not used by any claim). -/
def getChatsStep (env : ChatsOutcome) (st : MonitorState) : List PyVal × MonitorState :=
  match env with
  | .ok chats => (chats, st)
  | .authError401 =>
      ([], recordError "Error getting chats: 401" (recordError "Invalid credentials" st))
  | .fetchError m => ([], recordError ("Error getting chats: " ++ m) st)

/-- Tracking of `last_user_names` (lines 743-752): when the user name was
not seen in this call, append `(name, is_system)` and keep the last 20. -/
def pushUserName (userName : String) (isSystem : Bool) (seen : List String)
    (st : MonitorState) : MonitorState × List String :=
  if userName ∈ seen then (st, seen)
  else
    let names := st.stats.lastUserNames ++ [(userName, isSystem)]
    let names := if names.length > 20 then names.drop (names.length - 20) else names
    ({ st with stats := { st.stats with lastUserNames := names } }, userName :: seen)

/-- Processing of one chat inside the loop of `get_unread_messages`.
`Except.error` models a Python exception escaping to the function's
handler (non-dict chat, non-dict last message or content, truthy
non-string text in `is_system_message`); all state mutations of a chat
happen after its last fallible operation, so an exception leaves the state
of the current chat untouched. -/
def processChat (st : MonitorState) (seen : List String) (chat : PyVal) :
    Except Unit (MonitorState × List String × Option UnreadMessage) :=
  match chat with
  | .dict d =>
    let chatId := pyStr (pyGetD d "id" .none)
    if chatId = "" then .ok (st, seen, Option.none)
    else
      let userName := extractUserName d
      if pyHasKey d "last_message" ∧ truthy (pyGetD d "last_message" .none) then
        match pyGetD d "last_message" .none with
        | .dict md =>
          let messageId := pyStr (pyGetD md "id" .none)
          if messageId = "" then .ok (st, seen, Option.none)
          else
            let isUnread := ¬ truthy (pyGetD md "read" (.bool false))
            let isIncoming := pyEqStr (pyGetD md "direction" .none) "in"
            if isUnread ∧ isIncoming then
              match (match pyGetD md "content" (.dict []) with
                     | .dict cd => Except.ok (pyGetD cd "text" (.str ""))
                     | _ => Except.error ()) with
              | .error e => .error e
              | .ok textV =>
                match isSystemMessage textV with
                | .error e => .error e
                | .ok isSystem =>
                  if messageId ∈ st.processedMessageIds then .ok (st, seen, Option.none)
                  else
                    let m : UnreadMessage :=
                      { chat_id := chatId, message_id := messageId,
                        text := (match textV with | .str s => s | _ => ""),
                        created := pyGetD md "created_formatted" (.str ""),
                        created_timestamp := pyGetD md "created" (.int 0),
                        direction := "in", is_unread := true,
                        is_system := isSystem, user_name := userName }
                    let st₁ := { st with
                      processedMessageIds := addId messageId st.processedMessageIds }
                    let pushed := pushUserName userName isSystem seen st₁
                    .ok (pushed.1, pushed.2, some m)
            else .ok (st, seen, Option.none)
        | _ => .error ()
      else .ok (st, seen, Option.none)
  | _ => .error ()

/-- The chat loop.  On an exception the messages collected so far are
discarded (the except handler returns `[]`) but state mutations from
already-processed chats persist: `.error` carries the state at the point
of failure. -/
def umLoop : List PyVal → MonitorState → List String →
    Except MonitorState (List UnreadMessage × MonitorState)
  | [], st, _ => .ok ([], st)
  | c :: cs, st, seen =>
    match processChat st seen c with
    | .error _ => .error st
    | .ok (st₁, seen₁, mo) =>
      match umLoop cs st₁ seen₁ with
      | .error st' => .error st'
      | .ok (rest, st') => .ok (mo.toList ++ rest, st')

/-- Body of `get_unread_messages` given the fetched chat list.  The
`_save_processed_ids` call on a non-empty result is file I/O and does not
change in-memory state. -/
def getUnreadMessagesCore (chats : List PyVal) (st : MonitorState) :
    List UnreadMessage × MonitorState :=
  match umLoop chats st [] with
  | .ok (ms, st') => (ms, st')
  | .error st' => ([], recordError "Error getting unread messages" st')

/-- `get_unread_messages`: fetch (errors degrade to `[]`), then the loop. -/
def getUnreadMessages (env : ChatsOutcome) (st : MonitorState) :
    List UnreadMessage × MonitorState :=
  let fetched := getChatsStep env st
  getUnreadMessagesCore fetched.1 fetched.2

/-! ## AutoReplyManager.send_auto_reply / process_auto_replies
(avito_api.py lines 328-466) -/

/-- Outcome of one attempted auto-reply send (token fetch + POST). -/
inductive SendOutcome where
  | tokenError
  | httpError (status : Nat)
  | requestError
  | success (responseId : String)

/-- The dict returned by `send_auto_reply`: `{"status": "already_replied"}`,
`{"error": ...}` or the remote response (carrying the new message id). -/
inductive ReplyResult where
  | alreadyReplied
  | errorResult (msg : String)
  | okResult (responseId : String)
deriving DecidableEq

/-- `send_auto_reply(chat_id, user_name)`: short-circuits when the chat is
already in `sent_replies`; on a successful POST the chat id is added to
`sent_replies` (and flushed to the state file) before returning.  The
third component records whether a network POST was performed. -/
def sendAutoReply (st : MonitorState) (chatId : String) (_userName : String)
    (env : SendOutcome) : ReplyResult × MonitorState × Bool :=
  if chatId ∈ st.sentReplies then (.alreadyReplied, st, false)
  else
    match env with
    | .tokenError => (.errorResult "Token error", st, false)
    | .httpError s => (.errorResult ("HTTP error: " ++ toString s), st, true)
    | .requestError => (.errorResult "Request error", st, true)
    | .success rid =>
        (.okResult rid, { st with sentReplies := addId chatId st.sentReplies }, true)

/-- One entry of the `sent_replies` list returned by
`process_auto_replies` (the dict at lines 440-446; timestamp omitted). -/
structure SentReply where
  chat_id : String
  user_name : String
  message_id : Option String
  original_message_id : String
deriving DecidableEq

/-- The loop over regular messages: one `send_auto_reply` call per message
in input order (`env i` is the outcome of the i-th attempt).  Returns the
successfully sent replies, the final state, and the ghost trace of chat
ids passed to `send_auto_reply`. -/
def parLoop (env : Nat → SendOutcome) : MonitorState → Nat → List UnreadMessage →
    List SentReply × MonitorState × List String
  | st, _, [] => ([], st, [])
  | st, i, m :: ms =>
    let r := sendAutoReply st m.chat_id m.user_name (env i)
    let rest := parLoop env r.2.1 (i + 1) ms
    match r.1 with
    | .okResult rid =>
      ({ chat_id := m.chat_id, user_name := m.user_name,
         message_id := some rid, original_message_id := m.message_id } :: rest.1,
       rest.2.1, m.chat_id :: rest.2.2)
    | _ => (rest.1, rest.2.1, m.chat_id :: rest.2.2)

/-- `process_auto_replies(unread_messages)`: system messages are filtered
out before any send is attempted. -/
def processAutoReplies (st : MonitorState) (msgs : List UnreadMessage)
    (env : Nat → SendOutcome) : List SentReply × MonitorState × List String :=
  if msgs.isEmpty then ([], st, [])
  else
    let regular := msgs.filter (fun m => !m.is_system)
    if regular.isEmpty then ([], st, [])
    else parLoop env st 0 regular

/-! ## get_all_chats (avito_api.py lines 771-817) -/

/-- `d[k] = v` on a Python dict. -/
def setDictEntries (es : List (String × PyVal)) (k : String) (v : PyVal) :
    List (String × PyVal) :=
  if pyHasKey es k then es.map (fun e => if e.1 = k then (k, v) else e)
  else es ++ [(k, v)]

def setDictKey (c : PyVal) (k : String) (v : PyVal) : PyVal :=
  match c with
  | .dict es => .dict (setDictEntries es k v)
  | _ => c

/-- The per-page loop `for chat in chats: chat['user_name'] = ...;
all_chats.append(chat)`.  A non-dict chat makes `extract_user_name` raise
(uncaught), which aborts the whole pagination with the chats appended so
far kept; the Bool records whether that exception occurred. -/
def annotateChats : List PyVal → List PyVal → List PyVal × Bool
  | acc, [] => (acc, false)
  | acc, c :: cs =>
    match extractUserNameE c with
    | .error _ => (acc, true)
    | .ok nm => annotateChats (acc ++ [setDictKey c "user_name" (.str nm)]) cs

/-- Length of the accumulator after an exception-free page annotation
(supports the termination argument of the pagination loop). -/
theorem annotateChats_ok_length (cs : List PyVal) (acc : List PyVal)
    (h : (annotateChats acc cs).2 = false) :
    (annotateChats acc cs).1.length = acc.length + cs.length := by
  induction cs generalizing acc with
  | nil => simp [annotateChats]
  | cons c cs ih =>
    simp only [annotateChats] at h ⊢
    match hc : extractUserNameE c with
    | .error e => simp [hc] at h
    | .ok nm =>
      simp only [hc] at h ⊢
      rw [ih _ h]
      simp
      omega

/-- The `while True` pagination loop of `get_all_chats`.  Returns the
accumulated chat list, the state (pagination errors recorded), and the
ghost list of offsets requested.  The checks mirror the source order:
empty page → stop; annotate (a mid-page exception stops with the partial
accumulator and records the pagination error); cumulative count ≥
MAX_CHATS → truncate and stop; short page → stop; else next offset. -/
def gacLoop (pages : Nat → ChatsOutcome) (st : MonitorState) (acc : List PyVal)
    (offset : Nat) : List PyVal × MonitorState × List Nat :=
  let fetched := getChatsStep (pages offset) st
  let chats := fetched.1
  let st₁ := fetched.2
  if hempty : chats.isEmpty then (acc, st₁, [offset])
  else
    let ann := annotateChats acc chats
    if hann : ann.2 then (ann.1, recordError "Error in pagination" st₁, [offset])
    else
      if hmax : MAX_CHATS ≤ ann.1.length then (ann.1.take MAX_CHATS, st₁, [offset])
      else if chats.length < BATCH_SIZE then (ann.1, st₁, [offset])
      else
        let rest := gacLoop pages st₁ ann.1 (offset + BATCH_SIZE)
        (rest.1, rest.2.1, offset :: rest.2.2)
termination_by MAX_CHATS - acc.length
decreasing_by
  unfold ann chats fetched at *
  have hlen := annotateChats_ok_length ((getChatsStep (pages offset) st).1) acc
    (by simpa using hann)
  have hne : ((getChatsStep (pages offset) st).1).length ≠ 0 := by
    intro h0
    exact hempty (by simpa [List.isEmpty_iff_length_eq_zero] using h0)
  omega

/-- The result dict of `get_all_chats` (`retrieved_at` timestamps
omitted).  `_process_timestamps(all_chats)` is modelled as the identity on
the list (elementwise map preserving length and element identity). -/
structure AllChatsResult where
  total_chats : Nat
  chats : List PyVal

def getAllChats (pages : Nat → ChatsOutcome) (st : MonitorState) :
    AllChatsResult × MonitorState × List Nat :=
  let r := gacLoop pages st [] 0
  ({ total_chats := r.1.length, chats := r.1 }, r.2.1, r.2.2)

/-! ## check_for_updates (avito_api.py lines 819-890) -/

/-- Environment of one cycle: outcome of the unread-messages fetch, the
per-send outcomes of auto-reply dispatch, the page outcomes of the
snapshot pagination, and whether writing the snapshot file succeeds. -/
structure CycleEnv where
  unreadEnv : ChatsOutcome
  sendEnv : Nat → SendOutcome
  pages : Nat → ChatsOutcome
  saveOk : Bool

structure CycleResult where
  allChats : AllChatsResult
  unread : List UnreadMessage
  autoReplyResults : List SentReply
  state : MonitorState
  sendTrace : List String

def bumpChecks (st : MonitorState) : MonitorState :=
  { st with stats := { st.stats with totalChecks := st.stats.totalChecks + 1 } }

/-- Statistics update after the unread fetch (lines 839-842). -/
def cycleCounters (st₁ : MonitorState) (unread : List UnreadMessage) : MonitorState :=
  { st₁ with stats := { st₁.stats with
      totalUnreadMessages := st₁.stats.totalUnreadMessages + unread.length,
      totalSystemMessages := st₁.stats.totalSystemMessages +
        (unread.filter (fun m => m.is_system)).length,
      totalRegularMessages := st₁.stats.totalRegularMessages +
        (unread.filter (fun m => !m.is_system)).length,
      lastUnreadCount := unread.length } }

/-- Step 2 of the cycle (lines 863-866): auto-replies are processed only
when the flag is on and there are regular messages, and the FULL unread
list is passed (`process_auto_replies(unread_messages)` — the dispatcher
itself filters system messages again). -/
def cycleDispatch (st₂ : MonitorState) (unread : List UnreadMessage)
    (sendEnv : Nat → SendOutcome) : List SentReply × MonitorState × List String :=
  if st₂.autoReplyEnabled ∧ ¬ (unread.filter (fun m => !m.is_system)).isEmpty
  then processAutoReplies st₂ unread sendEnv
  else ([], st₂, [])

/-- `total_auto_replies` update (line 866). -/
def bumpAutoReplies (st : MonitorState) (n : Nat) : MonitorState :=
  { st with stats := { st.stats with
      totalAutoReplies := st.stats.totalAutoReplies + n } }

/-- The snapshot write (lines 872-879): a failure is caught and
recorded. -/
def cycleSave (saveOk : Bool) (st₄ : MonitorState) : MonitorState :=
  if saveOk then st₄ else recordError "Error saving to file" st₄

/-- Line 882: `self.stats['last_error'] = None`, reached at the end of
every cycle whose outer body completes. -/
def clearLastError (st₅ : MonitorState) : MonitorState :=
  { st₅ with stats := { st₅.stats with lastError := Option.none } }

/-- One poll cycle.  Every fallible step is wrapped in its own handler in
the source (`get_chats`, `get_unread_messages`, `send_auto_reply`,
`get_all_chats`, the snapshot write), so the outer except handler of
`check_for_updates` is unreachable for the modelled inputs and the cycle
always reaches the final `self.stats['last_error'] = None` before
returning its result triple. -/
def checkForUpdates (env : CycleEnv) (st : MonitorState) : CycleResult :=
  let um := getUnreadMessages env.unreadEnv (bumpChecks st)
  let ar := cycleDispatch (cycleCounters um.2 um.1) um.1 env.sendEnv
  let ac := getAllChats env.pages (bumpAutoReplies ar.2.1 ar.1.length)
  { allChats := ac.1, unread := um.1, autoReplyResults := ar.1,
    state := clearLastError (cycleSave env.saveOk ac.2.1), sendTrace := ar.2.2 }

/-! ## reset_processed_ids and the operation alphabet -/

/-- `reset_processed_ids` (avito_api.py lines 570-574): clears the
processed-id set (and flushes the file); nothing else changes. -/
def resetProcessedIds (st : MonitorState) : MonitorState :=
  { st with processedMessageIds := [] }

/-- Every modelled in-process operation that touches monitor state. -/
inductive MonOp where
  | unreadOp (env : ChatsOutcome)
  | resetOp
  | sendOp (chatId userName : String) (env : SendOutcome)
  | batchOp (msgs : List UnreadMessage) (env : Nat → SendOutcome)
  | allChatsOp (pages : Nat → ChatsOutcome)
  | cycleOp (env : CycleEnv)

def monStep (st : MonitorState) : MonOp → MonitorState
  | .unreadOp env => (getUnreadMessages env st).2
  | .resetOp => resetProcessedIds st
  | .sendOp c u e => (sendAutoReply st c u e).2.1
  | .batchOp msgs env => (processAutoReplies st msgs env).2.1
  | .allChatsOp pages => (getAllChats pages st).2.1
  | .cycleOp env => (checkForUpdates env st).state

def runMon (st : MonitorState) : List MonOp → MonitorState
  | [] => st
  | op :: ops => runMon (monStep st op) ops

/-- Chat ids of the successful auto-reply dispatches performed by one
operation: an `okResult` of `send_auto_reply`, or the `sent_replies`
entries collected by `process_auto_replies` (directly or inside a cycle). -/
def opSuccesses (st : MonitorState) : MonOp → List String
  | .sendOp c u e =>
      match (sendAutoReply st c u e).1 with
      | .okResult _ => [c]
      | _ => []
  | .batchOp msgs env => ((processAutoReplies st msgs env).1).map (fun r => r.chat_id)
  | .cycleOp env => ((checkForUpdates env st).autoReplyResults).map (fun r => r.chat_id)
  | _ => []

def runSuccesses (st : MonitorState) : List MonOp → List String
  | [] => []
  | op :: ops => opSuccesses st op ++ runSuccesses (monStep st op) ops

/-- The unread messages surfaced by one operation. -/
def opUnread (st : MonitorState) : MonOp → List UnreadMessage
  | .unreadOp env => (getUnreadMessages env st).1
  | .cycleOp env => (checkForUpdates env st).unread
  | _ => []

def runUnread (st : MonitorState) : List MonOp → List UnreadMessage
  | [] => []
  | op :: ops => opUnread st op ++ runUnread (monStep st op) ops

/-- Whether an operation is `reset_processed_ids` (claim C2 quantifies
over process lifetimes in which the ids are not reset). -/
def MonOp.isReset : MonOp → Bool
  | .resetOp => true
  | _ => false

/-! ## Counting helpers and concrete inputs used by witnesses and
counterexamples -/

/-- Occurrences of a chat id in a dispatch trace. -/
def countOcc (c : String) (l : List String) : Nat :=
  l.countP (fun x => x == c)

/-- Occurrences of a message id among surfaced unread messages. -/
def countMsg (m : String) (ms : List UnreadMessage) : Nat :=
  ms.countP (fun x => x.message_id == m)

/-- The chat list inside a `get_chats` outcome (errors degrade to `[]`). -/
def chatsOf : ChatsOutcome → List PyVal
  | .ok cs => cs
  | _ => []

def isDictVal : PyVal → Bool
  | .dict _ => true
  | _ => false

/-- A fresh monitor state (empty persisted sets, zeroed statistics). -/
def initState : MonitorState :=
  { autoReplyEnabled := true
    processedMessageIds := []
    sentReplies := []
    stats :=
      { totalChecks := 0, totalUnreadMessages := 0, totalAutoReplies := 0
        totalSystemMessages := 0, totalRegularMessages := 0, lastUnreadCount := 0
        lastError := Option.none, errorLog := [], lastUserNames := [] } }

/-- C6 counterexample material: an insertion history of 1001 distinct ids
(the i-th id is a string of i letters, so distinctness is provable from
lengths) and one admissible enumeration of the same set that lists the
newest id first. -/
def cexId (n : Nat) : String := String.mk (List.replicate n 'a')

def cexInsertionOrder : List String := (List.range 1001).map cexId

def cexEnum : List String := cexId 1000 :: cexInsertionOrder.take 1000

/-- C8 counterexample: a chat whose participant record has an ill-typed
(integer) name, a perfectly good chat-level name, and a short id. -/
def c8Chat : List (String × PyVal) :=
  [("users", .list [.dict [("name", .int 1)]]),
   ("name", .str "Alice"),
   ("id", .str "abc")]

/-- C7 counterexample: a single page of 202 chats whose 202nd entry is not
a dict: `extract_user_name` raises on it after 201 chats were appended,
the pagination handler keeps the partial accumulator, and no truncation
runs. -/
def c7GoodChat : PyVal := .dict [("id", .str "c")]

def c7Pages : Nat → ChatsOutcome :=
  fun _ => .ok (List.replicate 201 c7GoodChat ++ [.str "bad"])

/-- C3 counterexample environment: the token endpoint returns HTTP 401
during the unread fetch; everything else succeeds trivially. -/
def c3Env : CycleEnv :=
  { unreadEnv := .authError401
    sendEnv := fun _ => .tokenError
    pages := fun _ => .ok []
    saveOk := true }

/-! ## Helper lemmas -/

theorem mem_addId {y x : String} {l : List String} :
    y ∈ addId x l ↔ y = x ∨ y ∈ l := by
  by_cases h : x ∈ l
  · simp only [addId, if_pos h]
    constructor
    · exact Or.inr
    · rintro (rfl | hy)
      · exact h
      · exact hy
  · simp [addId, if_neg h]

theorem subset_addId {x : String} {l : List String} (y : String) (hy : y ∈ l) :
    y ∈ addId x l :=
  mem_addId.mpr (Or.inr hy)

theorem self_mem_addId {x : String} {l : List String} : x ∈ addId x l :=
  mem_addId.mpr (Or.inl rfl)

theorem recordError_frame (m : String) (st : MonitorState) :
    (recordError m st).processedMessageIds = st.processedMessageIds ∧
    (recordError m st).sentReplies = st.sentReplies ∧
    (recordError m st).autoReplyEnabled = st.autoReplyEnabled := by
  exact ⟨rfl, rfl, rfl⟩

theorem recordError_log (m : String) (st : MonitorState) (e : String)
    (he : e ∈ st.stats.errorLog) : e ∈ (recordError m st).stats.errorLog := by
  simp [recordError]
  exact Or.inl he

theorem recordError_log_self (m : String) (st : MonitorState) :
    m ∈ (recordError m st).stats.errorLog := by
  simp [recordError]

/-! ## C5: token cache -/

/-- C5: with `force_refresh=False`, a truthy cached token whose recorded
expiry lies strictly in the future is returned with zero network calls;
in every other configuration exactly one token exchange is performed, and
a successful exchange stores expiry `now + (expires_in - 300)`. -/
theorem c5_token_cache_reuse_and_refresh (st : TokenState) (now : Int)
    (env : TokenFetchOutcome) :
    (∀ t e, st.accessToken = some t → t ≠ "" → st.tokenExpires = some e → now < e →
      getAccessToken st false now env = (.ok (t, st), 0)) ∧
    (¬ (tokenTruthy st.accessToken = true ∧ ∃ e, st.tokenExpires = some e ∧ now < e) →
      (getAccessToken st false now env).2 = 1 ∧
      ∀ tok ei, env = .ok tok ei →
        (getAccessToken st false now env).1 =
          .ok (tok, { accessToken := some tok
                      tokenExpires := some (now + (ei.getD 86400 - 300)) })) := by
  constructor
  · intro t e ht hne he hlt
    simp [getAccessToken, he, tokenTruthy, ht, hne, hlt]
  · intro hn
    have hfetch : ∀ tok ei, env = .ok tok ei →
        fetchToken now env =
          .ok (tok, { accessToken := some tok
                      tokenExpires := some (now + (ei.getD 86400 - 300)) }) := by
      intro tok ei henv
      simp [fetchToken, henv]
    match hexp : st.tokenExpires with
    | Option.none =>
      refine ⟨by simp [getAccessToken, hexp], ?_⟩
      intro tok ei henv
      simp only [getAccessToken, hexp]
      exact hfetch tok ei henv
    | some exp =>
      constructor
      · simp only [getAccessToken, hexp]
        split
        · rename_i hc
          exact absurd ⟨hc.2.1, exp, hexp, hc.2.2⟩ hn
        · rfl
      · intro tok ei henv
        simp only [getAccessToken, hexp]
        split
        · rename_i hc
          exact absurd ⟨hc.2.1, exp, hexp, hc.2.2⟩ hn
        · exact hfetch tok ei henv

/-- Witness for C5 at a concrete cache state: a valid cached token is
reused with zero calls, and an expired cache performs one exchange. -/
theorem c5_witness :
    getAccessToken { accessToken := some "tok", tokenExpires := some 100 } false 50
        (.ok "t2" (some 1000)) = (.ok ("tok", { accessToken := some "tok", tokenExpires := some 100 }), 0) ∧
    ((getAccessToken { accessToken := Option.none, tokenExpires := Option.none } false 50
        (.ok "t2" (some 1000))).2 = 1 ∧
     (getAccessToken { accessToken := Option.none, tokenExpires := Option.none } false 50
        (.ok "t2" (some 1000))).1 =
       .ok ("t2", { accessToken := some "t2", tokenExpires := some (50 + (1000 - 300)) })) := by
  constructor
  · exact (c5_token_cache_reuse_and_refresh
      { accessToken := some "tok", tokenExpires := some 100 } 50 (.ok "t2" (some 1000))).1
      "tok" 100 rfl (by decide) rfl (by decide)
  · have h := (c5_token_cache_reuse_and_refresh
      { accessToken := Option.none, tokenExpires := Option.none } 50 (.ok "t2" (some 1000))).2
      (by rintro ⟨htr, -⟩; simp [tokenTruthy] at htr)
    exact ⟨h.1, by simpa using h.2 "t2" (some 1000) rfl⟩

/-! ## C9: scheduler sleep -/

theorem sleepLoop_le (running : Nat → Bool) (k i : Nat) :
    sleepLoop running k i ≤ k := by
  induction k generalizing i with
  | zero => simp [sleepLoop]
  | succ k ih =>
    simp only [sleepLoop]
    split
    · have := ih (i + 1)
      omega
    · exact Nat.zero_le _

theorem sleepLoop_stop (running : Nat → Bool) (k i m : Nat)
    (hm : i ≤ m) (hstop : running m = false) :
    sleepLoop running k i ≤ m - i := by
  induction k generalizing i with
  | zero => simp [sleepLoop]
  | succ k ih =>
    simp only [sleepLoop]
    split
    · rename_i hrun
      have hne : i ≠ m := by
        intro rfl_eq
        rw [rfl_eq] at hrun
        rw [hstop] at hrun
        exact Bool.noConfusion hrun
      have hm' : i + 1 ≤ m := Nat.lt_of_le_of_ne hm hne
      have := ih (i + 1) hm'
      omega
    · exact Nat.zero_le _

theorem sleepLoop_all (running : Nat → Bool) (k i : Nat)
    (h : ∀ j, running j = true) : sleepLoop running k i = k := by
  induction k generalizing i with
  | zero => rfl
  | succ k ih => simp [sleepLoop, h i, ih (i + 1), Nat.add_comm]

/-- C9: after a cycle, the sleep duration is `max 10 (interval / 2)`
(floor division) when the last cycle recorded unread messages and the full
interval otherwise; the sleep loop runs in 1-second increments checking
the running flag before each second, so it sleeps at most the computed
duration, stops within the second of a cleared flag, and sleeps the full
duration when the flag stays set. -/
theorem c9_sleep_duration_and_increments (interval lastUnread : Nat)
    (running : Nat → Bool) :
    (0 < lastUnread → computeSleepTime interval lastUnread = max 10 (interval / 2)) ∧
    (lastUnread = 0 → computeSleepTime interval lastUnread = interval) ∧
    sleepSeconds (computeSleepTime interval lastUnread) running ≤
      computeSleepTime interval lastUnread ∧
    (∀ k, running k = false →
      sleepSeconds (computeSleepTime interval lastUnread) running ≤ k) ∧
    ((∀ j, running j = true) →
      sleepSeconds (computeSleepTime interval lastUnread) running =
        computeSleepTime interval lastUnread) := by
  refine ⟨?_, ?_, ?_, ?_, ?_⟩
  · intro h
    simp [computeSleepTime, h]
  · intro h
    simp [computeSleepTime, h]
  · exact sleepLoop_le running _ 0
  · intro k hk
    have := sleepLoop_stop running (computeSleepTime interval lastUnread) 0 k
      (Nat.zero_le k) hk
    simpa [sleepSeconds] using this
  · intro h
    exact sleepLoop_all running _ 0 h

/-- Witness for C9 at interval 30: an active last cycle sleeps
`max 10 15 = 15` seconds under an always-true flag, and a flag cleared at
second 3 stops the sleep by second 3. -/
theorem c9_witness :
    (0 < 1 → computeSleepTime 30 1 = max 10 (30 / 2)) ∧
    sleepSeconds (computeSleepTime 30 1) (fun i => decide (i < 3)) ≤ 3 ∧
    sleepSeconds (computeSleepTime 30 1) (fun _ => true) = computeSleepTime 30 1 := by
  have h := c9_sleep_duration_and_increments 30 1 (fun i => decide (i < 3))
  have h2 := c9_sleep_duration_and_increments 30 1 (fun _ => true)
  exact ⟨h.1, h.2.2.2.1 3 (by decide), h2.2.2.2.2 (fun j => rfl)⟩

/-! ## C6: persisted processed-id trimming -/

/-- C6 (amended): the persisted list is capped at 1000 entries drawn from
the set, and a set of at most 1000 ids is persisted in full. -/
theorem c6_saved_ids_capped (enum : List String) :
    (savedProcessedIds enum).length ≤ 1000 ∧
    (∀ x, x ∈ savedProcessedIds enum → x ∈ enum) ∧
    (enum.length ≤ 1000 → savedProcessedIds enum = enum) := by
  unfold savedProcessedIds
  split
  · rename_i h
    refine ⟨?_, ?_, ?_⟩
    · rw [List.length_drop]
      omega
    · intro x hx
      exact List.mem_of_mem_drop hx
    · intro hle
      omega
  · rename_i h
    exact ⟨by omega, fun x hx => hx, fun _ => rfl⟩

/-- Witness for C6 at a one-element set. -/
theorem c6_witness :
    savedProcessedIds ["a"] = ["a"] ∧ "a" ∈ ["a"] :=
  ⟨(c6_saved_ids_capped ["a"]).2.2 (by decide),
   (c6_saved_ids_capped ["a"]).2.1 "a" (by decide)⟩

theorem cexId_injective : Function.Injective cexId := by
  intro a b h
  have h2 : List.replicate a 'a' = List.replicate b 'a' := congrArg String.data h
  have h3 := congrArg List.length h2
  simpa using h3

theorem cexInsertionOrder_nodup : cexInsertionOrder.Nodup :=
  (List.nodup_range 1001).map cexId_injective

theorem cexInsertionOrder_length : cexInsertionOrder.length = 1001 := by
  simp [cexInsertionOrder]

theorem cexInsertionOrder_take : cexInsertionOrder.take 1000 = (List.range 1000).map cexId := by
  unfold cexInsertionOrder
  rw [← List.map_take, List.take_range]
  norm_num

theorem cexInsertionOrder_split :
    cexInsertionOrder = cexInsertionOrder.take 1000 ++ [cexId 1000] := by
  have hdrop : cexInsertionOrder.drop 1000 = [cexId 1000] := by
    unfold cexInsertionOrder
    rw [← List.map_drop, List.range_succ, List.drop_left' (by rw [List.length_range])]
    rfl
  calc cexInsertionOrder
      = cexInsertionOrder.take 1000 ++ cexInsertionOrder.drop 1000 :=
        (List.take_append_drop 1000 cexInsertionOrder).symm
    _ = cexInsertionOrder.take 1000 ++ [cexId 1000] := by rw [hdrop]

theorem cexInsertionOrder_drop_one :
    cexInsertionOrder.drop 1 = (List.range 1000).map (fun k => cexId (k + 1)) := by
  unfold cexInsertionOrder
  rw [← List.map_drop, List.range_succ_eq_map]
  simp [List.map_map, Function.comp]

/-- Counterexample to C6 as stated: `cexEnum` is a legitimate enumeration
(a permutation) of a 1001-element distinct insertion history, yet the
persisted entries after trimming are not the most recent 1000 — the very
oldest id is kept and the newest is evicted, because `list(set)` order is
unrelated to insertion order. -/
theorem c6_counterexample :
    cexEnum.Perm cexInsertionOrder ∧ cexInsertionOrder.Nodup ∧
    ¬ keptAreMostRecent cexInsertionOrder cexEnum := by
  refine ⟨?_, cexInsertionOrder_nodup, ?_⟩
  · show (cexId 1000 :: cexInsertionOrder.take 1000).Perm cexInsertionOrder
    conv_rhs => rw [cexInsertionOrder_split]
    exact (List.perm_append_singleton _ _).symm
  · intro hall
    have hlen : cexEnum.length = 1001 := by
      show (cexId 1000 :: cexInsertionOrder.take 1000).length = 1001
      rw [List.length_cons, List.length_take, cexInsertionOrder_length]
      omega
    have hsaved : savedProcessedIds cexEnum = cexInsertionOrder.take 1000 := by
      unfold savedProcessedIds
      rw [hlen, if_pos (by norm_num)]
      have h1 : (1001 : Nat) - 1000 = 1 := by norm_num
      rw [h1]
      simp [cexEnum]
    have h1 : cexId 0 ∈ savedProcessedIds cexEnum := by
      rw [hsaved, cexInsertionOrder_take]
      exact List.mem_map.mpr ⟨0, List.mem_range.mpr (by omega), rfl⟩
    have h2 : cexId 0 ∉ mostRecentIds cexInsertionOrder := by
      unfold mostRecentIds
      rw [cexInsertionOrder_length]
      have h1 : (1001 : Nat) - 1000 = 1 := by norm_num
      rw [h1, cexInsertionOrder_drop_one]
      intro hmem
      obtain ⟨k, -, hk⟩ := List.mem_map.mp hmem
      have := cexId_injective hk
      omega
    exact h2 ((hall (cexId 0)).mp h1)

/-! ## C8: extract_user_name fallback chain -/

theorem firstUserName_spec (ul : List PyVal) (h : ul.all userWellTyped = true) :
    firstUserNameE ul = .ok (specUserNameFromUsers ul) := by
  induction ul with
  | nil => rfl
  | cons u us ih =>
    simp only [List.all_cons, Bool.and_eq_true] at h
    obtain ⟨hu, hus⟩ := h
    cases u with
    | dict ud =>
      cases hm : pyGetD ud "name" (.dict []) with
      | str s =>
        by_cases hs : s = ""
        · subst hs
          simp [firstUserNameE, specUserNameFromUsers, hm, truthy, ih hus,
            show pyStripStr "" = "" from rfl]
        · by_cases ht : pyStripStr s = ""
          · simp [firstUserNameE, specUserNameFromUsers, hm, truthy, hs, pyStrip, ht, ih hus]
          · simp [firstUserNameE, specUserNameFromUsers, hm, truthy, hs, pyStrip, ht]
      | _ =>
        simp only [userWellTyped, hm] at hu
        simp_all [firstUserNameE, specUserNameFromUsers, hm, ih hus]
    | _ => simp [firstUserNameE, specUserNameFromUsers, ih hus]

theorem rest_spec (d : List (String × PyVal))
    (h3 : (match pyGetD d "context" (.dict []) with
           | .dict ces =>
             (match pyGetD ces "item_title" .none with
              | .str _ => true
              | v => !truthy v)
           | v => !truthy v) = true) :
    (match contextNameE d with
     | .ok (some s) => s
     | _ => lastResortName d) = specUserNameRest d := by
  simp only [contextNameE, specUserNameRest]
  cases hc : pyGetD d "context" (.dict []) with
  | dict ces =>
    rw [hc] at h3
    cases ces with
    | nil => simp [truthy, pyGetD]
    | cons e es =>
      cases hi : pyGetD (e :: es) "item_title" .none with
      | str s =>
        by_cases hs : s = ""
        · subst hs
          simp [hi, truthy, show pyStripStr "" = "" from rfl]
        · by_cases ht : pyStripStr s = ""
          · simp [hi, truthy, hs, pyStrip, ht]
          · simp [hi, truthy, hs, pyStrip, ht]
      | _ =>
        simp_all [truthy]
  | _ =>
    rw [hc] at h3
    simp_all [truthy]

theorem tail_spec (d : List (String × PyVal))
    (h2 : (match pyOr (pyGetD d "name" .none) (pyGetD d "title" .none) with
           | .str _ => true
           | v => !truthy v) = true)
    (h3 : (match pyGetD d "context" (.dict []) with
           | .dict ces =>
             (match pyGetD ces "item_title" .none with
              | .str _ => true
              | v => !truthy v)
           | v => !truthy v) = true) :
    (match chatNameE d with
     | .ok (some s) => s
     | _ => lastResortName d) =
    (match pyOr (pyGetD d "name" .none) (pyGetD d "title" .none) with
     | .str s => if pyStripStr s ≠ "" then pyStripStr s else specUserNameRest d
     | _ => specUserNameRest d) := by
  have hrest := rest_spec d h3
  simp only [chatNameE]
  cases hn : pyOr (pyGetD d "name" .none) (pyGetD d "title" .none) with
  | str s =>
    by_cases hs : s = ""
    · subst hs
      simpa [truthy] using hrest
    · by_cases ht : pyStripStr s = ""
      · simpa [truthy, hs, pyStrip, ht] using hrest
      · simp [truthy, hs, pyStrip, ht]
  | _ =>
    rw [hn] at h2
    simp only [truthy] at h2 ⊢
    first
      | simpa using hrest
      | (simp_all
         try simpa using hrest)

/-- C8 (amended): on every chat dict the function returns a string without
propagating an exception, and it follows the specified priority chain
whenever the name-bearing fields are well-typed; an ill-typed truthy field
makes the try body raise internally, which skips the remaining (b)/(c)
levels and falls directly to the chat-id last resort. -/
theorem c8_extract_user_name_priority (d : List (String × PyVal))
    (h : chatWellTyped d = true) :
    extractUserNameE (.dict d) = .ok (extractUserName d) ∧
    extractUserName d = specUserName d := by
  refine ⟨rfl, ?_⟩
  simp only [chatWellTyped, Bool.and_eq_true] at h
  obtain ⟨⟨h1, h2⟩, h3⟩ := h
  have htail := tail_spec d h2 h3
  unfold extractUserName extractTry specUserName
  cases hu : pyGetD d "users" (.list []) with
  | list ul =>
    rw [hu] at h1
    have h1' : ul.all userWellTyped = true := by simpa using h1
    have hfu := firstUserName_spec ul h1'
    cases hul : ul with
    | nil => simpa [truthy, specUserNameFromUsers] using htail
    | cons v vs =>
      rw [hul] at hfu
      cases hspec : specUserNameFromUsers (v :: vs) with
      | some s => simp [truthy, hul, hfu, hspec]
      | none =>
        rw [hspec] at hfu
        simp only [truthy, hul, hfu, hspec]
        simpa [hul, hfu, hspec] using htail
  | _ => simpa using htail

/-- Witness for C8 at a well-typed chat carrying only a chat-level name. -/
theorem c8_witness :
    chatWellTyped [("name", PyVal.str "Bob")] = true ∧
    extractUserName [("name", PyVal.str "Bob")] = specUserName [("name", PyVal.str "Bob")] :=
  ⟨by decide, (c8_extract_user_name_priority [("name", PyVal.str "Bob")] (by decide)).2⟩

/-- Counterexample to C8 as stated: a chat whose participant list holds an
integer `name` and whose chat-level name is "Alice".  The priority chain
of the claim yields "Alice" (level b), but the code raises at
`name.strip()`, skips levels (b) and (c), and returns "Unknown User". -/
theorem c8_counterexample :
    extractUserName c8Chat = "Unknown User" ∧ specUserName c8Chat = "Alice" ∧
    ("Unknown User" : String) ≠ "Alice" := by
  refine ⟨by decide, by decide, by decide⟩

/-! ## Dedup invariant machinery: get_unread_messages -/

theorem countMsg_nil (m : String) : countMsg m [] = 0 := rfl

theorem countMsg_append (m : String) (a b : List UnreadMessage) :
    countMsg m (a ++ b) = countMsg m a + countMsg m b := by
  simp [countMsg, List.countP_append]

theorem countMsg_cons (m : String) (x : UnreadMessage) (l : List UnreadMessage) :
    countMsg m (x :: l) = countMsg m l + (if x.message_id = m then 1 else 0) := by
  simp [countMsg, List.countP_cons]

theorem countOcc_nil (c : String) : countOcc c [] = 0 := rfl

theorem countOcc_append (c : String) (a b : List String) :
    countOcc c (a ++ b) = countOcc c a + countOcc c b := by
  simp [countOcc, List.countP_append]

theorem countOcc_cons (c : String) (x : String) (l : List String) :
    countOcc c (x :: l) = countOcc c l + (if x = c then 1 else 0) := by
  simp [countOcc, List.countP_cons]

theorem pushUserName_frame (u : String) (b : Bool) (seen : List String)
    (st : MonitorState) :
    (pushUserName u b seen st).1.processedMessageIds = st.processedMessageIds ∧
    (pushUserName u b seen st).1.sentReplies = st.sentReplies ∧
    (pushUserName u b seen st).1.autoReplyEnabled = st.autoReplyEnabled ∧
    (pushUserName u b seen st).1.stats.errorLog = st.stats.errorLog ∧
    (pushUserName u b seen st).1.stats.lastError = st.stats.lastError := by
  unfold pushUserName
  split <;> exact ⟨rfl, rfl, rfl, rfl, rfl⟩

/-- State effect of processing one chat: `sent_replies`, the error fields
and the auto-reply flag are untouched; a surfaced message was not yet
processed and its id is inserted; a skipped chat leaves the id set
unchanged. -/
theorem processChat_ok {st : MonitorState} {seen : List String} {c : PyVal}
    {st₁ : MonitorState} {seen₁ : List String} {mo : Option UnreadMessage}
    (h : processChat st seen c = .ok (st₁, seen₁, mo)) :
    st₁.sentReplies = st.sentReplies ∧
    st₁.autoReplyEnabled = st.autoReplyEnabled ∧
    st₁.stats.errorLog = st.stats.errorLog ∧
    (∀ m, mo = some m →
      m.message_id ∉ st.processedMessageIds ∧
      st₁.processedMessageIds = addId m.message_id st.processedMessageIds) ∧
    (mo = Option.none → st₁.processedMessageIds = st.processedMessageIds) := by
  cases c with
  | dict d =>
    simp only [processChat] at h
    repeat' split at h
    any_goals (simp only [reduceCtorEq] at h)
    all_goals
      simp only [Except.ok.injEq, Prod.mk.injEq] at h
    all_goals obtain ⟨h1, h2, h3⟩ := h
    all_goals subst h1 h3
    all_goals try exact ⟨rfl, rfl, rfl, fun m hm => Option.noConfusion hm, fun _ => rfl⟩
    all_goals
      refine ⟨(pushUserName_frame _ _ _ _).2.1,
              (pushUserName_frame _ _ _ _).2.2.1,
              (pushUserName_frame _ _ _ _).2.2.2.1,
              fun m hm => ?_, fun hmo => Option.noConfusion hmo⟩
    all_goals cases hm
    all_goals exact ⟨by assumption, (pushUserName_frame _ _ _ _).1⟩
  | _ => simp [processChat] at h

/-- Invariant of the chat loop: `sent_replies`, the auto-reply flag and the
error log are untouched; the processed-id set only grows; a message id is
surfaced at most once per call, never when already processed, and is in
the processed set afterwards.  Holds on both the normal and the
exceptional exit. -/
theorem umLoop_spec (cs : List PyVal) (st : MonitorState) (seen : List String) :
    (∀ ms st', umLoop cs st seen = .ok (ms, st') →
      st'.sentReplies = st.sentReplies ∧
      st'.autoReplyEnabled = st.autoReplyEnabled ∧
      st'.stats.errorLog = st.stats.errorLog ∧
      (∀ x, x ∈ st.processedMessageIds → x ∈ st'.processedMessageIds) ∧
      ∀ M, countMsg M ms ≤ 1 ∧
           (M ∈ st.processedMessageIds → countMsg M ms = 0) ∧
           (1 ≤ countMsg M ms → M ∈ st'.processedMessageIds)) ∧
    (∀ st', umLoop cs st seen = .error st' →
      st'.sentReplies = st.sentReplies ∧
      st'.autoReplyEnabled = st.autoReplyEnabled ∧
      st'.stats.errorLog = st.stats.errorLog ∧
      (∀ x, x ∈ st.processedMessageIds → x ∈ st'.processedMessageIds)) := by
  induction cs generalizing st seen with
  | nil =>
    constructor
    · intro ms st' h
      simp only [umLoop, Except.ok.injEq, Prod.mk.injEq] at h
      obtain ⟨h1, h2⟩ := h
      subst h1 h2
      exact ⟨rfl, rfl, rfl, fun x hx => hx,
        fun M => ⟨by simp [countMsg_nil], fun _ => rfl, fun h0 => by simp [countMsg_nil] at h0⟩⟩
    · intro st' h
      simp only [umLoop, reduceCtorEq] at h
  | cons c cs ih =>
    constructor
    · intro ms st' h
      simp only [umLoop] at h
      match hpc : processChat st seen c with
      | .error e => rw [hpc] at h; simp only [reduceCtorEq] at h
      | .ok (st₁, seen₁, mo) =>
        rw [hpc] at h
        dsimp only at h
        have pc := processChat_ok hpc
        match hum : umLoop cs st₁ seen₁ with
        | .error st'' => rw [hum] at h; simp only [reduceCtorEq] at h
        | .ok (rest, st₂) =>
          rw [hum] at h
          dsimp only at h
          simp only [Except.ok.injEq, Prod.mk.injEq] at h
          obtain ⟨h1, h2⟩ := h
          subst h1 h2
          have iha := (ih st₁ seen₁).1 rest st₂ hum
          have hmono : ∀ x, x ∈ st.processedMessageIds → x ∈ st₁.processedMessageIds := by
            intro x hx
            cases mo with
            | none => rw [pc.2.2.2.2 rfl]; exact hx
            | some m => rw [(pc.2.2.2.1 m rfl).2]; exact subset_addId x hx
          refine ⟨iha.1.trans pc.1, iha.2.1.trans pc.2.1, iha.2.2.1.trans pc.2.2.1,
            fun x hx => iha.2.2.2.1 x (hmono x hx), ?_⟩
          intro M
          cases mo with
          | none =>
            have hpr := pc.2.2.2.2 rfl
            simp only [Option.toList, List.nil_append]
            refine ⟨(iha.2.2.2.2 M).1, ?_, ?_⟩
            · intro hM
              exact (iha.2.2.2.2 M).2.1 (by rw [hpr]; exact hM)
            · exact (iha.2.2.2.2 M).2.2
          | some m =>
            obtain ⟨hnot, hins⟩ := pc.2.2.2.1 m rfl
            simp only [Option.toList, List.singleton_append]
            rw [countMsg_cons]
            by_cases hMm : m.message_id = M
            · subst hMm
              have h0 : countMsg m.message_id rest = 0 :=
                (iha.2.2.2.2 m.message_id).2.1 (by rw [hins]; exact self_mem_addId)
              refine ⟨by simp [h0], ?_, ?_⟩
              · intro hM
                exact absurd hM hnot
              · intro _
                exact iha.2.2.2.1 m.message_id (by rw [hins]; exact self_mem_addId)
            · refine ⟨by simpa [hMm] using (iha.2.2.2.2 M).1, ?_, ?_⟩
              · intro hM
                simp only [hMm, if_false, Nat.add_zero]
                exact (iha.2.2.2.2 M).2.1 (hmono M hM)
              · intro hge
                simp only [hMm, if_false, Nat.add_zero] at hge
                exact (iha.2.2.2.2 M).2.2 hge
    · intro st' h
      simp only [umLoop] at h
      match hpc : processChat st seen c with
      | .error e =>
        rw [hpc] at h
        simp only [Except.error.injEq] at h
        subst h
        exact ⟨rfl, rfl, rfl, fun x hx => hx⟩
      | .ok (st₁, seen₁, mo) =>
        rw [hpc] at h
        dsimp only at h
        have pc := processChat_ok hpc
        have hmono : ∀ x, x ∈ st.processedMessageIds → x ∈ st₁.processedMessageIds := by
          intro x hx
          cases mo with
          | none => rw [pc.2.2.2.2 rfl]; exact hx
          | some m => rw [(pc.2.2.2.1 m rfl).2]; exact subset_addId x hx
        match hum : umLoop cs st₁ seen₁ with
        | .ok (rest, st₂) => rw [hum] at h; simp only [reduceCtorEq] at h
        | .error st'' =>
          rw [hum] at h
          dsimp only at h
          simp only [Except.error.injEq] at h
          subst h
          have ihe := (ih st₁ seen₁).2 st'' hum
          exact ⟨ihe.1.trans pc.1, ihe.2.1.trans pc.2.1, ihe.2.2.1.trans pc.2.2.1,
            fun x hx => ihe.2.2.2 x (hmono x hx)⟩

theorem getChatsStep_frame (env : ChatsOutcome) (st : MonitorState) :
    (getChatsStep env st).2.processedMessageIds = st.processedMessageIds ∧
    (getChatsStep env st).2.sentReplies = st.sentReplies ∧
    (getChatsStep env st).2.autoReplyEnabled = st.autoReplyEnabled ∧
    (∀ e, e ∈ st.stats.errorLog → e ∈ (getChatsStep env st).2.stats.errorLog) := by
  cases env with
  | ok chats => exact ⟨rfl, rfl, rfl, fun e he => he⟩
  | authError401 =>
    exact ⟨rfl, rfl, rfl, fun e he =>
      recordError_log _ _ e (recordError_log _ _ e he)⟩
  | fetchError m => exact ⟨rfl, rfl, rfl, fun e he => recordError_log _ _ e he⟩

theorem getChatsStep_401 (st : MonitorState) :
    "Invalid credentials" ∈ (getChatsStep .authError401 st).2.stats.errorLog :=
  recordError_log _ _ _ (recordError_log_self _ _)

/-- Per-call invariant of `get_unread_messages`. -/
theorem getUnreadMessages_spec (env : ChatsOutcome) (st : MonitorState) :
    (getUnreadMessages env st).2.sentReplies = st.sentReplies ∧
    (getUnreadMessages env st).2.autoReplyEnabled = st.autoReplyEnabled ∧
    (∀ x, x ∈ st.processedMessageIds → x ∈ (getUnreadMessages env st).2.processedMessageIds) ∧
    (∀ e, e ∈ st.stats.errorLog → e ∈ (getUnreadMessages env st).2.stats.errorLog) ∧
    ∀ M, countMsg M (getUnreadMessages env st).1 ≤ 1 ∧
         (M ∈ st.processedMessageIds → countMsg M (getUnreadMessages env st).1 = 0) ∧
         (1 ≤ countMsg M (getUnreadMessages env st).1 →
           M ∈ (getUnreadMessages env st).2.processedMessageIds) := by
  have hcf := getChatsStep_frame env st
  unfold getUnreadMessages getUnreadMessagesCore
  dsimp only
  match hum : umLoop (getChatsStep env st).1 (getChatsStep env st).2 [] with
  | .ok (ms, st') =>
    have hspec := (umLoop_spec _ _ _).1 ms st' hum
    refine ⟨hspec.1.trans hcf.2.1, hspec.2.1.trans hcf.2.2.1, ?_, ?_, ?_⟩
    · intro x hx
      exact hspec.2.2.2.1 x (by rw [hcf.1]; exact hx)
    · intro e he
      rw [hspec.2.2.1]
      exact hcf.2.2.2 e he
    · intro M
      refine ⟨(hspec.2.2.2.2 M).1, ?_, (hspec.2.2.2.2 M).2.2⟩
      intro hM
      exact (hspec.2.2.2.2 M).2.1 (by rw [hcf.1]; exact hM)
  | .error st' =>
    have hspec := (umLoop_spec _ _ _).2 st' hum
    refine ⟨hspec.1.trans hcf.2.1, hspec.2.1.trans hcf.2.2.1, ?_, ?_, ?_⟩
    · intro x hx
      exact hspec.2.2.2 x (by rw [hcf.1]; exact hx)
    · intro e he
      exact recordError_log _ _ e (by rw [hspec.2.2.1]; exact hcf.2.2.2 e he)
    · intro M
      exact ⟨by simp [countMsg_nil], fun _ => rfl, fun h0 => by simp [countMsg_nil] at h0⟩

/-! ## Auto-reply invariant machinery -/

/-- Short-circuit of `send_auto_reply`: an already-replied chat gets the
`already_replied` status, unchanged state, and no network POST. -/
theorem sendAutoReply_already {st : MonitorState} {c : String} (u : String)
    (e : SendOutcome) (h : c ∈ st.sentReplies) :
    sendAutoReply st c u e = (.alreadyReplied, st, false) := by
  simp [sendAutoReply, h]

/-- State effect of one `send_auto_reply` call: the processed-id set, the
flag and the statistics are untouched; `sent_replies` only grows; an
`okResult` happens only for a not-yet-replied chat on a successful POST
and inserts the chat id before returning; any other result leaves
`sent_replies` unchanged. -/
theorem sendAutoReply_spec (st : MonitorState) (c u : String) (e : SendOutcome) :
    (sendAutoReply st c u e).2.1.processedMessageIds = st.processedMessageIds ∧
    (sendAutoReply st c u e).2.1.autoReplyEnabled = st.autoReplyEnabled ∧
    (sendAutoReply st c u e).2.1.stats = st.stats ∧
    (∀ x, x ∈ st.sentReplies → x ∈ (sendAutoReply st c u e).2.1.sentReplies) ∧
    (∀ rid, (sendAutoReply st c u e).1 = .okResult rid →
      c ∉ st.sentReplies ∧ e = .success rid ∧
      (sendAutoReply st c u e).2.1.sentReplies = addId c st.sentReplies) ∧
    ((∀ rid, (sendAutoReply st c u e).1 ≠ .okResult rid) →
      (sendAutoReply st c u e).2.1.sentReplies = st.sentReplies) := by
  by_cases hmem : c ∈ st.sentReplies
  · simp [sendAutoReply, hmem]
  · cases e with
    | tokenError => simp [sendAutoReply, hmem]
    | httpError code => simp [sendAutoReply, hmem]
    | requestError => simp [sendAutoReply, hmem]
    | success rid₀ =>
      have hins : (sendAutoReply st c u (.success rid₀)).2.1.sentReplies =
          addId c st.sentReplies := by
        simp [sendAutoReply, hmem]
      have hres : (sendAutoReply st c u (.success rid₀)).1 = .okResult rid₀ := by
        simp [sendAutoReply, hmem]
      refine ⟨by simp [sendAutoReply, hmem], by simp [sendAutoReply, hmem],
              by simp [sendAutoReply, hmem], ?_, ?_, ?_⟩
      · intro x hx
        rw [hins]
        exact subset_addId x hx
      · intro rid hr
        rw [hres] at hr
        simp only [ReplyResult.okResult.injEq] at hr
        subst hr
        exact ⟨hmem, rfl, hins⟩
      · intro hne
        exact absurd hres (hne rid₀)

/-- Invariant of the `process_auto_replies` loop over regular messages. -/
theorem parLoop_spec (env : Nat → SendOutcome) (ms : List UnreadMessage)
    (st : MonitorState) (i : Nat) :
    (parLoop env st i ms).2.1.processedMessageIds = st.processedMessageIds ∧
    (parLoop env st i ms).2.1.autoReplyEnabled = st.autoReplyEnabled ∧
    (parLoop env st i ms).2.1.stats = st.stats ∧
    (∀ x, x ∈ st.sentReplies → x ∈ (parLoop env st i ms).2.1.sentReplies) ∧
    (parLoop env st i ms).2.2 = ms.map (fun m => m.chat_id) ∧
    ∀ C, countOcc C ((parLoop env st i ms).1.map (fun s => s.chat_id)) ≤ 1 ∧
         (C ∈ st.sentReplies →
           countOcc C ((parLoop env st i ms).1.map (fun s => s.chat_id)) = 0) ∧
         (1 ≤ countOcc C ((parLoop env st i ms).1.map (fun s => s.chat_id)) →
           C ∈ (parLoop env st i ms).2.1.sentReplies) := by
  induction ms generalizing st i with
  | nil =>
    refine ⟨rfl, rfl, rfl, fun x hx => hx, rfl,
      fun C => ⟨?_, fun _ => rfl, fun h0 => ?_⟩⟩
    · have h1 : countOcc C (((parLoop env st i
          ([] : List UnreadMessage)).1).map (fun s => s.chat_id)) = 0 := rfl
      omega
    · have h1 : countOcc C (((parLoop env st i
          ([] : List UnreadMessage)).1).map (fun s => s.chat_id)) = 0 := rfl
      omega
  | cons m ms ih =>
    have hsend := sendAutoReply_spec st m.chat_id m.user_name (env i)
    have ihr := ih (sendAutoReply st m.chat_id m.user_name (env i)).2.1 (i + 1)
    simp only [parLoop]
    match hr : (sendAutoReply st m.chat_id m.user_name (env i)).1 with
    | .okResult rid =>
      obtain ⟨hnot, -, hins⟩ := hsend.2.2.2.2.1 rid hr
      dsimp only
      refine ⟨ihr.1.trans hsend.1, ihr.2.1.trans hsend.2.1, ihr.2.2.1.trans hsend.2.2.1,
        fun x hx => ihr.2.2.2.1 x (hsend.2.2.2.1 x hx), ?_, ?_⟩
      · rw [ihr.2.2.2.2.1, List.map_cons]
      · intro C
        rw [List.map_cons, countOcc_cons]
        by_cases hCm : m.chat_id = C
        · subst hCm
          have h0 : countOcc m.chat_id
              ((parLoop env (sendAutoReply st m.chat_id m.user_name (env i)).2.1 (i + 1) ms).1.map
                (fun s => s.chat_id)) = 0 :=
            (ihr.2.2.2.2.2 m.chat_id).2.1 (by rw [hins]; exact self_mem_addId)
          refine ⟨by simp [h0], fun hC => absurd hC hnot, fun _ => ?_⟩
          exact ihr.2.2.2.1 m.chat_id (by rw [hins]; exact self_mem_addId)
        · refine ⟨by simpa [hCm] using (ihr.2.2.2.2.2 C).1, ?_, ?_⟩
          · intro hC
            simp only [hCm, if_false, Nat.add_zero]
            exact (ihr.2.2.2.2.2 C).2.1 (hsend.2.2.2.1 C hC)
          · intro hge
            simp only [hCm, if_false, Nat.add_zero] at hge
            exact (ihr.2.2.2.2.2 C).2.2 hge
    | .alreadyReplied =>
      have hsame : (sendAutoReply st m.chat_id m.user_name (env i)).2.1.sentReplies =
          st.sentReplies := hsend.2.2.2.2.2 (by intro rid; rw [hr]; simp)
      dsimp only
      refine ⟨ihr.1.trans hsend.1, ihr.2.1.trans hsend.2.1, ihr.2.2.1.trans hsend.2.2.1,
        fun x hx => ihr.2.2.2.1 x (hsend.2.2.2.1 x hx), ?_, ?_⟩
      · rw [ihr.2.2.2.2.1, List.map_cons]
      · intro C
        refine ⟨(ihr.2.2.2.2.2 C).1, ?_, (ihr.2.2.2.2.2 C).2.2⟩
        intro hC
        exact (ihr.2.2.2.2.2 C).2.1 (by rw [hsame]; exact hC)
    | .errorResult msg =>
      have hsame : (sendAutoReply st m.chat_id m.user_name (env i)).2.1.sentReplies =
          st.sentReplies := hsend.2.2.2.2.2 (by intro rid; rw [hr]; simp)
      dsimp only
      refine ⟨ihr.1.trans hsend.1, ihr.2.1.trans hsend.2.1, ihr.2.2.1.trans hsend.2.2.1,
        fun x hx => ihr.2.2.2.1 x (hsend.2.2.2.1 x hx), ?_, ?_⟩
      · rw [ihr.2.2.2.2.1, List.map_cons]
      · intro C
        refine ⟨(ihr.2.2.2.2.2 C).1, ?_, (ihr.2.2.2.2.2 C).2.2⟩
        intro hC
        exact (ihr.2.2.2.2.2 C).2.1 (by rw [hsame]; exact hC)

/-- Per-call invariant of `process_auto_replies`: dispatch is attempted
exactly for the non-system messages in order, at most one success per
chat, never for an already-replied chat, and the replied chat is in
`sent_replies` afterwards. -/
theorem processAutoReplies_spec (st : MonitorState) (msgs : List UnreadMessage)
    (env : Nat → SendOutcome) :
    (processAutoReplies st msgs env).2.1.processedMessageIds = st.processedMessageIds ∧
    (processAutoReplies st msgs env).2.1.autoReplyEnabled = st.autoReplyEnabled ∧
    (processAutoReplies st msgs env).2.1.stats = st.stats ∧
    (∀ x, x ∈ st.sentReplies → x ∈ (processAutoReplies st msgs env).2.1.sentReplies) ∧
    (processAutoReplies st msgs env).2.2 =
      (msgs.filter (fun m => !m.is_system)).map (fun m => m.chat_id) ∧
    ∀ C, countOcc C ((processAutoReplies st msgs env).1.map (fun s => s.chat_id)) ≤ 1 ∧
         (C ∈ st.sentReplies →
           countOcc C ((processAutoReplies st msgs env).1.map (fun s => s.chat_id)) = 0) ∧
         (1 ≤ countOcc C ((processAutoReplies st msgs env).1.map (fun s => s.chat_id)) →
           C ∈ (processAutoReplies st msgs env).2.1.sentReplies) := by
  by_cases h1 : msgs.isEmpty
  · simp only [processAutoReplies, h1, if_true]
    rw [List.isEmpty_iff] at h1
    subst h1
    refine ⟨?_, ?_, ?_, ?_, ?_, fun C => ⟨?_, fun hC => ?_, fun h0 => ?_⟩⟩ <;>
      first
        | trivial
        | (exact fun x hx => hx)
        | simp [countOcc]
        | (exfalso; simp [countOcc] at h0)
  · have h1' : msgs.isEmpty = false := by simpa using h1
    by_cases h2 : (msgs.filter (fun m => !m.is_system)).isEmpty
    · have h2' : (msgs.filter (fun m => !m.is_system)).isEmpty = true := h2
      simp only [processAutoReplies, h1', h2', Bool.false_eq_true, if_false, if_true]
      rw [List.isEmpty_iff] at h2
      rw [h2]
      refine ⟨?_, ?_, ?_, ?_, ?_, fun C => ⟨?_, fun hC => ?_, fun h0 => ?_⟩⟩ <;>
        first
          | trivial
          | (exact fun x hx => hx)
          | simp [countOcc]
          | (exfalso; simp [countOcc] at h0)
    · have h2' : (msgs.filter (fun m => !m.is_system)).isEmpty = false := by simpa using h2
      simp only [processAutoReplies, h1', h2', Bool.false_eq_true, if_false]
      exact parLoop_spec env _ st 0

/-! ## Pagination invariants (get_all_chats) -/

theorem annotateChats_no_error (cs : List PyVal) (acc : List PyVal)
    (h : ∀ c ∈ cs, isDictVal c = true) : (annotateChats acc cs).2 = false := by
  induction cs generalizing acc with
  | nil => rfl
  | cons c cs ih =>
    have hc := h c (List.mem_cons_self c cs)
    cases c with
    | dict d =>
      simp only [annotateChats, extractUserNameE]
      exact ih _ (fun x hx => h x (List.mem_cons_of_mem _ hx))
    | _ => simp [isDictVal] at hc

theorem gacLoop_frame (pages : Nat → ChatsOutcome) :
    ∀ (st : MonitorState) (acc : List PyVal) (offset : Nat),
    (gacLoop pages st acc offset).2.1.processedMessageIds = st.processedMessageIds ∧
    (gacLoop pages st acc offset).2.1.sentReplies = st.sentReplies ∧
    (gacLoop pages st acc offset).2.1.autoReplyEnabled = st.autoReplyEnabled ∧
    (∀ e, e ∈ st.stats.errorLog → e ∈ (gacLoop pages st acc offset).2.1.stats.errorLog) := by
  apply gacLoop.induct pages
  · intro st acc offset fetched chats hempty
    have hempty' : ((getChatsStep (pages offset) st).1).isEmpty = true := hempty
    rw [gacLoop, dif_pos hempty']
    exact ⟨(getChatsStep_frame _ _).1, (getChatsStep_frame _ _).2.1,
      (getChatsStep_frame _ _).2.2.1, (getChatsStep_frame _ _).2.2.2⟩
  · intro st acc offset fetched chats hempty ann hann
    have hempty' : ¬ ((getChatsStep (pages offset) st).1).isEmpty = true := hempty
    have hann' : (annotateChats acc (getChatsStep (pages offset) st).1).2 = true := hann
    rw [gacLoop, dif_neg hempty', dif_pos hann']
    exact ⟨(getChatsStep_frame _ _).1, (getChatsStep_frame _ _).2.1,
      (getChatsStep_frame _ _).2.2.1,
      fun e he => recordError_log _ _ e ((getChatsStep_frame _ _).2.2.2 e he)⟩
  · intro st acc offset fetched chats hempty ann hann hmax
    have hempty' : ¬ ((getChatsStep (pages offset) st).1).isEmpty = true := hempty
    have hann' : ¬ (annotateChats acc (getChatsStep (pages offset) st).1).2 = true := hann
    have hmax' : MAX_CHATS ≤ (annotateChats acc (getChatsStep (pages offset) st).1).1.length := hmax
    rw [gacLoop, dif_neg hempty', dif_neg hann', dif_pos hmax']
    exact ⟨(getChatsStep_frame _ _).1, (getChatsStep_frame _ _).2.1,
      (getChatsStep_frame _ _).2.2.1, (getChatsStep_frame _ _).2.2.2⟩
  · intro st acc offset fetched chats hempty ann hann hmax hshort
    have hempty' : ¬ ((getChatsStep (pages offset) st).1).isEmpty = true := hempty
    have hann' : ¬ (annotateChats acc (getChatsStep (pages offset) st).1).2 = true := hann
    have hmax' : ¬ MAX_CHATS ≤ (annotateChats acc (getChatsStep (pages offset) st).1).1.length := hmax
    have hshort' : ((getChatsStep (pages offset) st).1).length < BATCH_SIZE := hshort
    rw [gacLoop, dif_neg hempty', dif_neg hann', dif_neg hmax', if_pos hshort']
    exact ⟨(getChatsStep_frame _ _).1, (getChatsStep_frame _ _).2.1,
      (getChatsStep_frame _ _).2.2.1, (getChatsStep_frame _ _).2.2.2⟩
  · intro st acc offset fetched chats st₁ hempty ann hann hmax hshort ih
    have hempty' : ¬ ((getChatsStep (pages offset) st).1).isEmpty = true := hempty
    have hann' : ¬ (annotateChats acc (getChatsStep (pages offset) st).1).2 = true := hann
    have hmax' : ¬ MAX_CHATS ≤ (annotateChats acc (getChatsStep (pages offset) st).1).1.length := hmax
    have hshort' : ¬ ((getChatsStep (pages offset) st).1).length < BATCH_SIZE := hshort
    rw [gacLoop, dif_neg hempty', dif_neg hann', dif_neg hmax', if_neg hshort']
    exact ⟨ih.1.trans (getChatsStep_frame _ _).1,
      ih.2.1.trans (getChatsStep_frame _ _).2.1,
      ih.2.2.1.trans (getChatsStep_frame _ _).2.2.1,
      fun e he => ih.2.2.2 e ((getChatsStep_frame _ _).2.2.2 e he)⟩

theorem getChatsStep_chats (env : ChatsOutcome) (st : MonitorState) :
    (getChatsStep env st).1 = chatsOf env := by
  cases env <;> rfl

theorem offsets_progression (offset n : Nat) :
    offset :: (List.range n).map (fun k => (offset + BATCH_SIZE) + k * BATCH_SIZE) =
      (List.range (n + 1)).map (fun k => offset + k * BATCH_SIZE) := by
  rw [List.range_succ_eq_map, List.map_cons, List.map_map]
  refine congrArg₂ List.cons (by omega) ?_
  apply List.map_congr_left
  intro k _
  simp only [Function.comp, Nat.succ_eq_add_one]
  ring

/-- When every fetched chat is a dict (so user-name annotation never
raises), the pagination loop returns exactly
`min (already accumulated + total fetched) MAX_CHATS` chats and requests
consecutive offsets spaced by BATCH_SIZE. -/
theorem gacLoop_count (pages : Nat → ChatsOutcome)
    (hwf : ∀ off c, c ∈ chatsOf (pages off) → isDictVal c = true) :
    ∀ (st : MonitorState) (acc : List PyVal) (offset : Nat),
      acc.length < MAX_CHATS →
      (gacLoop pages st acc offset).1.length =
        min (acc.length + ((gacLoop pages st acc offset).2.2.map
          (fun o => (chatsOf (pages o)).length)).sum) MAX_CHATS ∧
      (gacLoop pages st acc offset).2.2 =
        (List.range (gacLoop pages st acc offset).2.2.length).map
          (fun k => offset + k * BATCH_SIZE) := by
  apply gacLoop.induct pages
  · intro st acc offset fetched chats hempty hacc
    have hempty' : ((getChatsStep (pages offset) st).1).isEmpty = true := hempty
    have hlen0 : (chatsOf (pages offset)).length = 0 := by
      rw [← getChatsStep_chats (pages offset) st]
      simpa [List.isEmpty_iff_length_eq_zero] using hempty'
    rw [gacLoop, dif_pos hempty']
    constructor
    · simp [hlen0]
      omega
    · simp [List.range_succ]
  · intro st acc offset fetched chats hempty ann hann hacc
    exfalso
    have hann' : (annotateChats acc (getChatsStep (pages offset) st).1).2 = true := hann
    have : (annotateChats acc (getChatsStep (pages offset) st).1).2 = false := by
      apply annotateChats_no_error
      intro c hc
      exact hwf offset c (by rwa [getChatsStep_chats (pages offset) st] at hc)
    rw [this] at hann'
    exact Bool.noConfusion hann'
  · intro st acc offset fetched chats hempty ann hann hmax hacc
    have hempty' : ¬ ((getChatsStep (pages offset) st).1).isEmpty = true := hempty
    have hann' : ¬ (annotateChats acc (getChatsStep (pages offset) st).1).2 = true := hann
    have hmax' : MAX_CHATS ≤ (annotateChats acc (getChatsStep (pages offset) st).1).1.length := hmax
    have hlen : (annotateChats acc (getChatsStep (pages offset) st).1).1.length =
        acc.length + ((getChatsStep (pages offset) st).1).length :=
      annotateChats_ok_length _ _ (by simpa using hann')
    have hcl : ((getChatsStep (pages offset) st).1).length = (chatsOf (pages offset)).length := by
      rw [getChatsStep_chats]
    rw [gacLoop, dif_neg hempty', dif_neg hann', dif_pos hmax']
    constructor
    · simp only [List.length_take, List.map_cons, List.map_nil, List.sum_cons, List.sum_nil]
      omega
    · simp [List.range_succ]
  · intro st acc offset fetched chats hempty ann hann hmax hshort hacc
    have hempty' : ¬ ((getChatsStep (pages offset) st).1).isEmpty = true := hempty
    have hann' : ¬ (annotateChats acc (getChatsStep (pages offset) st).1).2 = true := hann
    have hmax' : ¬ MAX_CHATS ≤ (annotateChats acc (getChatsStep (pages offset) st).1).1.length := hmax
    have hshort' : ((getChatsStep (pages offset) st).1).length < BATCH_SIZE := hshort
    have hlen : (annotateChats acc (getChatsStep (pages offset) st).1).1.length =
        acc.length + ((getChatsStep (pages offset) st).1).length :=
      annotateChats_ok_length _ _ (by simpa using hann')
    have hcl : ((getChatsStep (pages offset) st).1).length = (chatsOf (pages offset)).length := by
      rw [getChatsStep_chats]
    rw [gacLoop, dif_neg hempty', dif_neg hann', dif_neg hmax', if_pos hshort']
    constructor
    · simp only [List.map_cons, List.map_nil, List.sum_cons, List.sum_nil]
      omega
    · simp [List.range_succ]
  · intro st acc offset fetched chats st₁ hempty ann hann hmax hshort ih hacc
    have hempty' : ¬ ((getChatsStep (pages offset) st).1).isEmpty = true := hempty
    have hann' : ¬ (annotateChats acc (getChatsStep (pages offset) st).1).2 = true := hann
    have hmax' : ¬ MAX_CHATS ≤ (annotateChats acc (getChatsStep (pages offset) st).1).1.length := hmax
    have hshort' : ¬ ((getChatsStep (pages offset) st).1).length < BATCH_SIZE := hshort
    have hlen : (annotateChats acc (getChatsStep (pages offset) st).1).1.length =
        acc.length + ((getChatsStep (pages offset) st).1).length :=
      annotateChats_ok_length _ _ (by simpa using hann')
    have hcl : ((getChatsStep (pages offset) st).1).length = (chatsOf (pages offset)).length := by
      rw [getChatsStep_chats]
    have ih' := ih (by omega)
    have ihL : (gacLoop pages (getChatsStep (pages offset) st).2
          (annotateChats acc (getChatsStep (pages offset) st).1).1 (offset + BATCH_SIZE)).1.length =
        min ((annotateChats acc (getChatsStep (pages offset) st).1).1.length +
          (((gacLoop pages (getChatsStep (pages offset) st).2
            (annotateChats acc (getChatsStep (pages offset) st).1).1 (offset + BATCH_SIZE)).2.2).map
              (fun o => (chatsOf (pages o)).length)).sum) MAX_CHATS := ih'.1
    have ihR : (gacLoop pages (getChatsStep (pages offset) st).2
          (annotateChats acc (getChatsStep (pages offset) st).1).1 (offset + BATCH_SIZE)).2.2 =
        (List.range ((gacLoop pages (getChatsStep (pages offset) st).2
          (annotateChats acc (getChatsStep (pages offset) st).1).1 (offset + BATCH_SIZE)).2.2).length).map
            (fun k => (offset + BATCH_SIZE) + k * BATCH_SIZE) := ih'.2
    rw [gacLoop, dif_neg hempty', dif_neg hann', dif_neg hmax', if_neg hshort']
    dsimp only
    constructor
    · rw [List.map_cons, List.sum_cons, ihL]
      omega
    · rw [List.length_cons]
      conv_lhs => rw [ihR]
      exact offsets_progression offset _

/-! ## Cycle composition -/

theorem cycleSave_frame (b : Bool) (st : MonitorState) :
    (cycleSave b st).processedMessageIds = st.processedMessageIds ∧
    (cycleSave b st).sentReplies = st.sentReplies ∧
    (cycleSave b st).autoReplyEnabled = st.autoReplyEnabled ∧
    (∀ e, e ∈ st.stats.errorLog → e ∈ (cycleSave b st).stats.errorLog) := by
  cases b with
  | true => exact ⟨rfl, rfl, rfl, fun e he => he⟩
  | false => exact ⟨rfl, rfl, rfl, fun e he => recordError_log _ _ e he⟩

theorem cycleDispatch_nil (st₂ : MonitorState) (sendEnv : Nat → SendOutcome) :
    cycleDispatch st₂ [] sendEnv = ([], st₂, []) := by
  unfold cycleDispatch
  simp

theorem cycleDispatch_spec (st₂ : MonitorState) (unread : List UnreadMessage)
    (sendEnv : Nat → SendOutcome) :
    (cycleDispatch st₂ unread sendEnv).2.1.processedMessageIds = st₂.processedMessageIds ∧
    (cycleDispatch st₂ unread sendEnv).2.1.autoReplyEnabled = st₂.autoReplyEnabled ∧
    (cycleDispatch st₂ unread sendEnv).2.1.stats = st₂.stats ∧
    (∀ x, x ∈ st₂.sentReplies → x ∈ (cycleDispatch st₂ unread sendEnv).2.1.sentReplies) ∧
    (∀ C, countOcc C ((cycleDispatch st₂ unread sendEnv).1.map (fun s => s.chat_id)) ≤ 1 ∧
      (C ∈ st₂.sentReplies →
        countOcc C ((cycleDispatch st₂ unread sendEnv).1.map (fun s => s.chat_id)) = 0) ∧
      (1 ≤ countOcc C ((cycleDispatch st₂ unread sendEnv).1.map (fun s => s.chat_id)) →
        C ∈ (cycleDispatch st₂ unread sendEnv).2.1.sentReplies)) ∧
    (∀ c, c ∈ (cycleDispatch st₂ unread sendEnv).2.2 →
      ∃ m, m ∈ unread ∧ m.is_system = false ∧ m.chat_id = c) := by
  by_cases hc : st₂.autoReplyEnabled = true ∧
      ¬ ((unread.filter (fun m => !m.is_system)).isEmpty = true)
  · have he : cycleDispatch st₂ unread sendEnv = processAutoReplies st₂ unread sendEnv := by
      unfold cycleDispatch
      rw [if_pos hc]
    rw [he]
    have hp := processAutoReplies_spec st₂ unread sendEnv
    refine ⟨hp.1, hp.2.1, hp.2.2.1, hp.2.2.2.1, hp.2.2.2.2.2, ?_⟩
    intro c hcmem
    rw [hp.2.2.2.2.1] at hcmem
    obtain ⟨m, hm, hmc⟩ := List.mem_map.mp hcmem
    have hmf := List.mem_filter.mp hm
    exact ⟨m, hmf.1, by simpa using hmf.2, hmc⟩
  · have he : cycleDispatch st₂ unread sendEnv = ([], st₂, []) := by
      unfold cycleDispatch
      rw [if_neg hc]
    rw [he]
    refine ⟨rfl, rfl, rfl, fun x hx => hx, ?_, ?_⟩
    · intro C
      exact ⟨by simp [countOcc], fun _ => by simp [countOcc],
        fun h0 => by simp [countOcc] at h0⟩
    · intro c hcmem
      simp at hcmem

/-- Composition invariant of one full cycle: both persisted sets only
grow, `last_error` is None at return, the error log only grows (and
records the 401 when the token endpoint rejects the credentials, with an
empty unread/reply result), messages surface at most once and dispatch
succeeds at most once per chat, and every dispatched chat id comes from a
non-system unread message. -/
theorem checkForUpdates_spec (env : CycleEnv) (st : MonitorState) :
    (∀ x, x ∈ st.sentReplies → x ∈ (checkForUpdates env st).state.sentReplies) ∧
    (∀ x, x ∈ st.processedMessageIds → x ∈ (checkForUpdates env st).state.processedMessageIds) ∧
    (checkForUpdates env st).state.stats.lastError = Option.none ∧
    (∀ e, e ∈ st.stats.errorLog → e ∈ (checkForUpdates env st).state.stats.errorLog) ∧
    (env.unreadEnv = .authError401 →
      "Invalid credentials" ∈ (checkForUpdates env st).state.stats.errorLog ∧
      (checkForUpdates env st).unread = [] ∧
      (checkForUpdates env st).autoReplyResults = []) ∧
    (∀ M, countMsg M (checkForUpdates env st).unread ≤ 1 ∧
      (M ∈ st.processedMessageIds → countMsg M (checkForUpdates env st).unread = 0) ∧
      (1 ≤ countMsg M (checkForUpdates env st).unread →
        M ∈ (checkForUpdates env st).state.processedMessageIds)) ∧
    (∀ C, countOcc C ((checkForUpdates env st).autoReplyResults.map (fun s => s.chat_id)) ≤ 1 ∧
      (C ∈ st.sentReplies →
        countOcc C ((checkForUpdates env st).autoReplyResults.map (fun s => s.chat_id)) = 0) ∧
      (1 ≤ countOcc C ((checkForUpdates env st).autoReplyResults.map (fun s => s.chat_id)) →
        C ∈ (checkForUpdates env st).state.sentReplies)) ∧
    (∀ c, c ∈ (checkForUpdates env st).sendTrace →
      ∃ m, m ∈ (checkForUpdates env st).unread ∧ m.is_system = false ∧ m.chat_id = c) := by
  have hu := getUnreadMessages_spec env.unreadEnv (bumpChecks st)
  have hd := cycleDispatch_spec
    (cycleCounters (getUnreadMessages env.unreadEnv (bumpChecks st)).2
      (getUnreadMessages env.unreadEnv (bumpChecks st)).1)
    (getUnreadMessages env.unreadEnv (bumpChecks st)).1 env.sendEnv
  have hacs : (checkForUpdates env st).state.sentReplies =
      (cycleDispatch (cycleCounters (getUnreadMessages env.unreadEnv (bumpChecks st)).2
      (getUnreadMessages env.unreadEnv (bumpChecks st)).1)
      (getUnreadMessages env.unreadEnv (bumpChecks st)).1 env.sendEnv).2.1.sentReplies :=
    ((cycleSave_frame env.saveOk ((getAllChats env.pages (bumpAutoReplies (cycleDispatch (cycleCounters (getUnreadMessages env.unreadEnv (bumpChecks st)).2
      (getUnreadMessages env.unreadEnv (bumpChecks st)).1)
      (getUnreadMessages env.unreadEnv (bumpChecks st)).1 env.sendEnv).2.1
      (cycleDispatch (cycleCounters (getUnreadMessages env.unreadEnv (bumpChecks st)).2
      (getUnreadMessages env.unreadEnv (bumpChecks st)).1)
      (getUnreadMessages env.unreadEnv (bumpChecks st)).1 env.sendEnv).1.length)).2.1)).2.1).trans
      ((gacLoop_frame env.pages (bumpAutoReplies (cycleDispatch (cycleCounters (getUnreadMessages env.unreadEnv (bumpChecks st)).2
      (getUnreadMessages env.unreadEnv (bumpChecks st)).1)
      (getUnreadMessages env.unreadEnv (bumpChecks st)).1 env.sendEnv).2.1
      (cycleDispatch (cycleCounters (getUnreadMessages env.unreadEnv (bumpChecks st)).2
      (getUnreadMessages env.unreadEnv (bumpChecks st)).1)
      (getUnreadMessages env.unreadEnv (bumpChecks st)).1 env.sendEnv).1.length) [] 0).2.1)
  have hacp : (checkForUpdates env st).state.processedMessageIds =
      (getUnreadMessages env.unreadEnv (bumpChecks st)).2.processedMessageIds :=
    ((cycleSave_frame env.saveOk ((getAllChats env.pages (bumpAutoReplies (cycleDispatch (cycleCounters (getUnreadMessages env.unreadEnv (bumpChecks st)).2
      (getUnreadMessages env.unreadEnv (bumpChecks st)).1)
      (getUnreadMessages env.unreadEnv (bumpChecks st)).1 env.sendEnv).2.1
      (cycleDispatch (cycleCounters (getUnreadMessages env.unreadEnv (bumpChecks st)).2
      (getUnreadMessages env.unreadEnv (bumpChecks st)).1)
      (getUnreadMessages env.unreadEnv (bumpChecks st)).1 env.sendEnv).1.length)).2.1)).1).trans
      (((gacLoop_frame env.pages (bumpAutoReplies (cycleDispatch (cycleCounters (getUnreadMessages env.unreadEnv (bumpChecks st)).2
      (getUnreadMessages env.unreadEnv (bumpChecks st)).1)
      (getUnreadMessages env.unreadEnv (bumpChecks st)).1 env.sendEnv).2.1
      (cycleDispatch (cycleCounters (getUnreadMessages env.unreadEnv (bumpChecks st)).2
      (getUnreadMessages env.unreadEnv (bumpChecks st)).1)
      (getUnreadMessages env.unreadEnv (bumpChecks st)).1 env.sendEnv).1.length) [] 0).1).trans hd.1)
  have haclog : ∀ e,
      e ∈ (getUnreadMessages env.unreadEnv (bumpChecks st)).2.stats.errorLog →
      e ∈ (checkForUpdates env st).state.stats.errorLog := by
    intro e he
    have h1 : e ∈ (cycleDispatch (cycleCounters (getUnreadMessages env.unreadEnv (bumpChecks st)).2
      (getUnreadMessages env.unreadEnv (bumpChecks st)).1)
      (getUnreadMessages env.unreadEnv (bumpChecks st)).1 env.sendEnv).2.1.stats.errorLog := by
      rw [hd.2.2.1]
      exact he
    have h2 := (gacLoop_frame env.pages (bumpAutoReplies (cycleDispatch (cycleCounters (getUnreadMessages env.unreadEnv (bumpChecks st)).2
      (getUnreadMessages env.unreadEnv (bumpChecks st)).1)
      (getUnreadMessages env.unreadEnv (bumpChecks st)).1 env.sendEnv).2.1
      (cycleDispatch (cycleCounters (getUnreadMessages env.unreadEnv (bumpChecks st)).2
      (getUnreadMessages env.unreadEnv (bumpChecks st)).1)
      (getUnreadMessages env.unreadEnv (bumpChecks st)).1 env.sendEnv).1.length) [] 0).2.2.2 e h1
    exact (cycleSave_frame env.saveOk ((getAllChats env.pages (bumpAutoReplies (cycleDispatch (cycleCounters (getUnreadMessages env.unreadEnv (bumpChecks st)).2
      (getUnreadMessages env.unreadEnv (bumpChecks st)).1)
      (getUnreadMessages env.unreadEnv (bumpChecks st)).1 env.sendEnv).2.1
      (cycleDispatch (cycleCounters (getUnreadMessages env.unreadEnv (bumpChecks st)).2
      (getUnreadMessages env.unreadEnv (bumpChecks st)).1)
      (getUnreadMessages env.unreadEnv (bumpChecks st)).1 env.sendEnv).1.length)).2.1)).2.2.2 e h2
  refine ⟨?_, ?_, rfl, ?_, ?_, ?_, ?_, ?_⟩
  · intro x hx
    rw [hacs]
    have hx2 : x ∈ (getUnreadMessages env.unreadEnv (bumpChecks st)).2.sentReplies := by
      rw [hu.1]
      exact hx
    exact hd.2.2.2.1 x hx2
  · intro x hx
    rw [hacp]
    exact hu.2.2.1 x hx
  · intro e he
    exact haclog e (hu.2.2.2.1 e he)
  · intro henv
    have hnil : (getUnreadMessages env.unreadEnv (bumpChecks st)).1 = [] := by
      rw [henv]
      rfl
    refine ⟨?_, hnil, ?_⟩
    · apply haclog
      rw [henv]
      exact getChatsStep_401 (bumpChecks st)
    · show (cycleDispatch (cycleCounters (getUnreadMessages env.unreadEnv (bumpChecks st)).2
      (getUnreadMessages env.unreadEnv (bumpChecks st)).1)
      (getUnreadMessages env.unreadEnv (bumpChecks st)).1 env.sendEnv).1 = []
      rw [show (cycleDispatch (cycleCounters (getUnreadMessages env.unreadEnv (bumpChecks st)).2
      (getUnreadMessages env.unreadEnv (bumpChecks st)).1)
      (getUnreadMessages env.unreadEnv (bumpChecks st)).1 env.sendEnv)
          = cycleDispatch (cycleCounters (getUnreadMessages env.unreadEnv (bumpChecks st)).2
              (getUnreadMessages env.unreadEnv (bumpChecks st)).1) [] env.sendEnv from by rw [hnil],
        cycleDispatch_nil]
  · intro M
    refine ⟨(hu.2.2.2.2 M).1, fun hM => (hu.2.2.2.2 M).2.1 hM, fun hge => ?_⟩
    rw [hacp]
    exact (hu.2.2.2.2 M).2.2 hge
  · intro C
    refine ⟨(hd.2.2.2.2.1 C).1, ?_, ?_⟩
    · intro hC
      have hC2 : C ∈ (getUnreadMessages env.unreadEnv (bumpChecks st)).2.sentReplies := by
        rw [hu.1]
        exact hC
      exact (hd.2.2.2.2.1 C).2.1 hC2
    · intro hge
      rw [hacs]
      exact (hd.2.2.2.2.1 C).2.2 hge
  · intro c hc
    exact hd.2.2.2.2.2 c hc

/-! ## Per-operation and whole-run invariants -/

theorem monStep_sent (st : MonitorState) (op : MonOp) :
    ∀ x, x ∈ st.sentReplies → x ∈ (monStep st op).sentReplies := by
  cases op with
  | unreadOp env =>
    intro x hx
    show x ∈ (getUnreadMessages env st).2.sentReplies
    rw [(getUnreadMessages_spec env st).1]
    exact hx
  | resetOp => exact fun x hx => hx
  | sendOp c u e => exact (sendAutoReply_spec st c u e).2.2.2.1
  | batchOp msgs env => exact (processAutoReplies_spec st msgs env).2.2.2.1
  | allChatsOp pages =>
    intro x hx
    have heq : (getAllChats pages st).2.1.sentReplies = st.sentReplies :=
      (gacLoop_frame pages st [] 0).2.1
    show x ∈ (getAllChats pages st).2.1.sentReplies
    rw [heq]
    exact hx
  | cycleOp env => exact (checkForUpdates_spec env st).1

theorem monStep_processed (st : MonitorState) (op : MonOp) (hop : op.isReset = false) :
    ∀ x, x ∈ st.processedMessageIds → x ∈ (monStep st op).processedMessageIds := by
  cases op with
  | unreadOp env => exact (getUnreadMessages_spec env st).2.2.1
  | resetOp => simp [MonOp.isReset] at hop
  | sendOp c u e =>
    intro x hx
    show x ∈ (sendAutoReply st c u e).2.1.processedMessageIds
    rw [(sendAutoReply_spec st c u e).1]
    exact hx
  | batchOp msgs env =>
    intro x hx
    show x ∈ (processAutoReplies st msgs env).2.1.processedMessageIds
    rw [(processAutoReplies_spec st msgs env).1]
    exact hx
  | allChatsOp pages =>
    intro x hx
    have heq : (getAllChats pages st).2.1.processedMessageIds = st.processedMessageIds :=
      (gacLoop_frame pages st [] 0).1
    show x ∈ (getAllChats pages st).2.1.processedMessageIds
    rw [heq]
    exact hx
  | cycleOp env => exact (checkForUpdates_spec env st).2.1

theorem opSuccesses_spec (st : MonitorState) (op : MonOp) :
    ∀ C, countOcc C (opSuccesses st op) ≤ 1 ∧
      (C ∈ st.sentReplies → countOcc C (opSuccesses st op) = 0) ∧
      (1 ≤ countOcc C (opSuccesses st op) → C ∈ (monStep st op).sentReplies) := by
  cases op with
  | unreadOp env =>
    intro C
    refine ⟨by simp [opSuccesses, countOcc], fun _ => by simp [opSuccesses, countOcc],
      fun h0 => ?_⟩
    simp [opSuccesses, countOcc] at h0
  | resetOp =>
    intro C
    refine ⟨by simp [opSuccesses, countOcc], fun _ => by simp [opSuccesses, countOcc],
      fun h0 => ?_⟩
    simp [opSuccesses, countOcc] at h0
  | allChatsOp pages =>
    intro C
    refine ⟨by simp [opSuccesses, countOcc], fun _ => by simp [opSuccesses, countOcc],
      fun h0 => ?_⟩
    simp [opSuccesses, countOcc] at h0
  | sendOp c u e =>
    intro C
    have hs := sendAutoReply_spec st c u e
    have hval : opSuccesses st (.sendOp c u e) =
        (match (sendAutoReply st c u e).1 with
         | .okResult _ => [c]
         | _ => []) := rfl
    cases hr : (sendAutoReply st c u e).1 with
    | okResult rid =>
      have hval2 : opSuccesses st (.sendOp c u e) = [c] := by rw [hval, hr]
      obtain ⟨hnot, -, hins⟩ := hs.2.2.2.2.1 rid hr
      rw [hval2]
      by_cases hCc : c = C
      · subst hCc
        refine ⟨by rw [countOcc_cons]; split <;> simp [countOcc],
          fun hC => absurd hC hnot, fun _ => ?_⟩
        show c ∈ (sendAutoReply st c u e).2.1.sentReplies
        rw [hins]
        exact self_mem_addId
      · refine ⟨by rw [countOcc_cons]; split <;> simp [countOcc],
          fun _ => by rw [countOcc_cons]; simp [countOcc, hCc], fun h0 => ?_⟩
        rw [countOcc_cons] at h0
        simp [countOcc, hCc] at h0
    | alreadyReplied =>
      have hval2 : opSuccesses st (.sendOp c u e) = [] := by rw [hval, hr]
      rw [hval2]
      refine ⟨by simp [countOcc], fun _ => by simp [countOcc], fun h0 => ?_⟩
      simp [countOcc] at h0
    | errorResult m =>
      have hval2 : opSuccesses st (.sendOp c u e) = [] := by rw [hval, hr]
      rw [hval2]
      refine ⟨by simp [countOcc], fun _ => by simp [countOcc], fun h0 => ?_⟩
      simp [countOcc] at h0
  | batchOp msgs env =>
    intro C
    exact (processAutoReplies_spec st msgs env).2.2.2.2.2 C
  | cycleOp env =>
    intro C
    exact (checkForUpdates_spec env st).2.2.2.2.2.2.1 C

theorem opUnread_spec (st : MonitorState) (op : MonOp) (hop : op.isReset = false) :
    ∀ M, countMsg M (opUnread st op) ≤ 1 ∧
      (M ∈ st.processedMessageIds → countMsg M (opUnread st op) = 0) ∧
      (1 ≤ countMsg M (opUnread st op) → M ∈ (monStep st op).processedMessageIds) := by
  cases op with
  | unreadOp env => exact (getUnreadMessages_spec env st).2.2.2.2
  | cycleOp env => exact (checkForUpdates_spec env st).2.2.2.2.2.1
  | resetOp => simp [MonOp.isReset] at hop
  | sendOp c u e =>
    intro M
    refine ⟨by simp [opUnread, countMsg], fun _ => by simp [opUnread, countMsg], fun h0 => ?_⟩
    simp [opUnread, countMsg] at h0
  | batchOp msgs env =>
    intro M
    refine ⟨by simp [opUnread, countMsg], fun _ => by simp [opUnread, countMsg], fun h0 => ?_⟩
    simp [opUnread, countMsg] at h0
  | allChatsOp pages =>
    intro M
    refine ⟨by simp [opUnread, countMsg], fun _ => by simp [opUnread, countMsg], fun h0 => ?_⟩
    simp [opUnread, countMsg] at h0

theorem runMon_sent (ops : List MonOp) (st : MonitorState) :
    ∀ C, C ∈ st.sentReplies → C ∈ (runMon st ops).sentReplies := by
  induction ops generalizing st with
  | nil => exact fun C hC => hC
  | cons op ops ih => exact fun C hC => ih (monStep st op) C (monStep_sent st op C hC)

theorem runMon_processed (ops : List MonOp) (st : MonitorState)
    (hops : ∀ op ∈ ops, op.isReset = false) :
    ∀ x, x ∈ st.processedMessageIds → x ∈ (runMon st ops).processedMessageIds := by
  induction ops generalizing st with
  | nil => exact fun x hx => hx
  | cons op ops ih =>
    intro x hx
    exact ih (monStep st op) (fun o ho => hops o (List.mem_cons_of_mem op ho)) x
      (monStep_processed st op (hops op (List.mem_cons_self op ops)) x hx)

theorem runSuccesses_spec (ops : List MonOp) (st : MonitorState) :
    ∀ C, countOcc C (runSuccesses st ops) ≤ 1 ∧
      (C ∈ st.sentReplies → countOcc C (runSuccesses st ops) = 0) ∧
      (1 ≤ countOcc C (runSuccesses st ops) → C ∈ (runMon st ops).sentReplies) := by
  induction ops generalizing st with
  | nil =>
    intro C
    exact ⟨by simp [runSuccesses, countOcc], fun _ => by simp [runSuccesses, countOcc],
      fun h0 => by simp [runSuccesses, countOcc] at h0⟩
  | cons op ops ih =>
    intro C
    have hop := opSuccesses_spec st op C
    have ihr := ih (monStep st op) C
    have happ : countOcc C (runSuccesses st (op :: ops)) =
        countOcc C (opSuccesses st op) + countOcc C (runSuccesses (monStep st op) ops) := by
      show countOcc C (opSuccesses st op ++ runSuccesses (monStep st op) ops) = _
      exact countOcc_append C _ _
    refine ⟨?_, ?_, ?_⟩
    · rw [happ]
      by_cases h1 : 1 ≤ countOcc C (opSuccesses st op)
      · have hmem := hop.2.2 h1
        have h0 := ihr.2.1 hmem
        omega
      · have := ihr.1
        omega
    · intro hC
      rw [happ]
      have ha := hop.2.1 hC
      have hb := ihr.2.1 (monStep_sent st op C hC)
      omega
    · intro hge
      rw [happ] at hge
      by_cases h1 : 1 ≤ countOcc C (opSuccesses st op)
      · exact runMon_sent ops (monStep st op) C (hop.2.2 h1)
      · have : 1 ≤ countOcc C (runSuccesses (monStep st op) ops) := by omega
        exact ihr.2.2 this

theorem runUnread_spec (ops : List MonOp) (st : MonitorState)
    (hops : ∀ op ∈ ops, op.isReset = false) :
    ∀ M, countMsg M (runUnread st ops) ≤ 1 ∧
      (M ∈ st.processedMessageIds → countMsg M (runUnread st ops) = 0) ∧
      (1 ≤ countMsg M (runUnread st ops) → M ∈ (runMon st ops).processedMessageIds) := by
  induction ops generalizing st with
  | nil =>
    intro M
    exact ⟨by simp [runUnread, countMsg], fun _ => by simp [runUnread, countMsg],
      fun h0 => by simp [runUnread, countMsg] at h0⟩
  | cons op ops ih =>
    intro M
    have hopr := hops op (List.mem_cons_self op ops)
    have hrest : ∀ o ∈ ops, o.isReset = false :=
      fun o ho => hops o (List.mem_cons_of_mem op ho)
    have hop := opUnread_spec st op hopr M
    have ihr := ih (monStep st op) hrest M
    have happ : countMsg M (runUnread st (op :: ops)) =
        countMsg M (opUnread st op) + countMsg M (runUnread (monStep st op) ops) := by
      show countMsg M (opUnread st op ++ runUnread (monStep st op) ops) = _
      exact countMsg_append M _ _
    refine ⟨?_, ?_, ?_⟩
    · rw [happ]
      by_cases h1 : 1 ≤ countMsg M (opUnread st op)
      · have hmem := hop.2.2 h1
        have h0 := ihr.2.1 hmem
        omega
      · have := ihr.1
        omega
    · intro hM
      rw [happ]
      have ha := hop.2.1 hM
      have hb := ihr.2.1 (monStep_processed st op hopr M hM)
      omega
    · intro hge
      rw [happ] at hge
      by_cases h1 : 1 ≤ countMsg M (opUnread st op)
      · exact runMon_processed ops (monStep st op) hrest M (hop.2.2 h1)
      · have : 1 ≤ countMsg M (runUnread (monStep st op) ops) := by omega
        exact ihr.2.2 this

/-! ## Claim theorems -/

/-- C7 (amended): over pages whose chats are all dicts (the shape the
API contract promises), pagination accumulates pages at offsets 0, 50,
100, ... (`BATCH_SIZE` apart), reports `total_chats` equal to the length
of the returned list, caps that length at `MAX_CHATS` by truncation, and
the length is exactly the paged total clipped to `MAX_CHATS`; the cap is
NOT guaranteed for ill-shaped pages, where the annotation loop aborts
mid-page with the partial accumulator and the truncation step is
skipped. -/
theorem c7_pagination_caps_total (pages : Nat → ChatsOutcome) (st : MonitorState)
    (hwf : ∀ off c, c ∈ chatsOf (pages off) → isDictVal c = true) :
    (getAllChats pages st).1.total_chats = (getAllChats pages st).1.chats.length ∧
    (getAllChats pages st).1.chats.length ≤ MAX_CHATS ∧
    (getAllChats pages st).1.chats.length =
      min (((getAllChats pages st).2.2).map
        (fun o => (chatsOf (pages o)).length)).sum MAX_CHATS ∧
    (getAllChats pages st).2.2 =
      (List.range (getAllChats pages st).2.2.length).map (fun k => k * BATCH_SIZE) := by
  have h := gacLoop_count pages hwf st [] 0 (by norm_num [MAX_CHATS])
  have h1 : (getAllChats pages st).1.chats.length =
      min (((getAllChats pages st).2.2).map
        (fun o => (chatsOf (pages o)).length)).sum MAX_CHATS := by
    simpa using h.1
  have h2 : (getAllChats pages st).2.2 =
      (List.range (getAllChats pages st).2.2.length).map (fun k => k * BATCH_SIZE) := by
    simpa using h.2
  exact ⟨rfl, by rw [h1]; exact Nat.min_le_right _ _, h1, h2⟩

/-- Witness for C7 at the trivially well-shaped empty feed. -/
theorem c7_witness :
    (getAllChats (fun _ => ChatsOutcome.ok []) initState).1.total_chats =
      (getAllChats (fun _ => ChatsOutcome.ok []) initState).1.chats.length ∧
    (getAllChats (fun _ => ChatsOutcome.ok []) initState).1.chats.length ≤ MAX_CHATS :=
  ⟨(c7_pagination_caps_total (fun _ => ChatsOutcome.ok []) initState
      (by intro off c hc; simp [chatsOf] at hc)).1,
   (c7_pagination_caps_total (fun _ => ChatsOutcome.ok []) initState
      (by intro off c hc; simp [chatsOf] at hc)).2.1⟩

set_option maxRecDepth 100000 in
/-- Counterexample to C7 as stated: a single page holding 201 dict chats
followed by one non-dict chat makes `chat['user_name'] = ...` raise on
the non-dict element after 201 appends; the `except` handler keeps the
partial list and returns it without the `[:MAX_CHATS]` truncation, so
`total_chats` is 201, exceeding `MAX_CHATS` = 200. -/
theorem c7_counterexample :
    MAX_CHATS < (getAllChats c7Pages initState).1.total_chats ∧
    (getAllChats c7Pages initState).1.total_chats = 201 := by
  have h : (getAllChats c7Pages initState).1.total_chats = 201 := by
    show (gacLoop c7Pages initState [] 0).1.length = 201
    rw [gacLoop]
    decide
  exact ⟨by rw [h]; decide, h⟩

/-- C1: for every chat id C, at most one successful auto-reply is ever
dispatched to C over any sequence of monitor/auto-reply operations
starting from the persisted `sent_replies` set: an already-replied chat
gets `already_replied` with no POST, a successful send inserts C into
`sent_replies` in the returned state, and the count of successful
dispatches to C over a whole run is at most one (zero when C starts in
`sent_replies`). -/
theorem c1_at_most_one_reply_per_chat (st : MonitorState) (ops : List MonOp)
    (C : String) :
    (∀ st' u e, C ∈ st'.sentReplies →
      sendAutoReply st' C u e = (.alreadyReplied, st', false)) ∧
    (∀ st' u rid, C ∉ st'.sentReplies →
      sendAutoReply st' C u (.success rid) =
        (.okResult rid, { st' with sentReplies := addId C st'.sentReplies }, true)) ∧
    countOcc C (runSuccesses st ops) ≤ 1 ∧
    (C ∈ st.sentReplies → countOcc C (runSuccesses st ops) = 0) :=
  ⟨fun _ u e h => sendAutoReply_already u e h,
   fun _ u rid h => by simp [sendAutoReply, h],
   (runSuccesses_spec ops st C).1,
   (runSuccesses_spec ops st C).2.1⟩

/-- Witness for C1: two successive successful-send attempts to the same
chat yield at most one success, and a chat already in `sent_replies`
short-circuits. -/
theorem c1_witness :
    countOcc "chatA" (runSuccesses initState
      [.sendOp "chatA" "u" (.success "r1"), .sendOp "chatA" "u" (.success "r2")]) ≤ 1 ∧
    sendAutoReply { initState with sentReplies := ["chatA"] } "chatA" "u" (.success "r") =
      (.alreadyReplied, { initState with sentReplies := ["chatA"] }, false) :=
  ⟨(c1_at_most_one_reply_per_chat initState
      [.sendOp "chatA" "u" (.success "r1"), .sendOp "chatA" "u" (.success "r2")] "chatA").2.2.1,
   (c1_at_most_one_reply_per_chat initState [] "chatA").1
     { initState with sentReplies := ["chatA"] } "u" (.success "r") (by decide)⟩

/-- C2: across any sequence of operations that never resets the
processed-id set, a message id M is surfaced in the unread output at most
once (never when M starts in the persisted set), and once surfaced it is
in the in-memory processed set. -/
theorem c2_message_surfaced_at_most_once (st : MonitorState) (ops : List MonOp)
    (M : String) (hops : ∀ op ∈ ops, op.isReset = false) :
    countMsg M (runUnread st ops) ≤ 1 ∧
    (M ∈ st.processedMessageIds → countMsg M (runUnread st ops) = 0) ∧
    (1 ≤ countMsg M (runUnread st ops) → M ∈ (runMon st ops).processedMessageIds) :=
  runUnread_spec ops st hops M

/-- Witness for C2: the same unread message fetched in two consecutive
cycles is surfaced exactly once. -/
theorem c2_witness :
    countMsg "m1" (runUnread initState
      [.unreadOp (.ok [PyVal.dict [("id", .str "c1"),
         ("last_message", .dict [("id", .str "m1"), ("direction", .str "in")])]]),
       .unreadOp (.ok [PyVal.dict [("id", .str "c1"),
         ("last_message", .dict [("id", .str "m1"), ("direction", .str "in")])]])]) ≤ 1 ∧
    countMsg "m1" (runUnread initState
      [.unreadOp (.ok [PyVal.dict [("id", .str "c1"),
         ("last_message", .dict [("id", .str "m1"), ("direction", .str "in")])]]),
       .unreadOp (.ok [PyVal.dict [("id", .str "c1"),
         ("last_message", .dict [("id", .str "m1"), ("direction", .str "in")])]])]) = 1 :=
  ⟨(c2_message_surfaced_at_most_once initState _ "m1" (by decide)).1, by decide⟩

/-- C3 (amended): `check_for_updates` never propagates an exception —
every fallible step is absorbed by an inner handler and a result triple
is always produced — and an HTTP 401 from the token endpoint is recorded
into `stats['last_error']` when it happens (observable in the error log)
with an empty unread list and no auto-replies; but `last_error` is then
unconditionally reset to None at the end of every cycle whose body
completes, including cycles that contained caught failures, so at return
`last_error` is None regardless of success. -/
theorem c3_cycle_error_handling (env : CycleEnv) (st : MonitorState) :
    (checkForUpdates env st).state.stats.lastError = Option.none ∧
    (∀ e, e ∈ st.stats.errorLog → e ∈ (checkForUpdates env st).state.stats.errorLog) ∧
    (env.unreadEnv = .authError401 →
      "Invalid credentials" ∈ (checkForUpdates env st).state.stats.errorLog ∧
      (checkForUpdates env st).unread = [] ∧
      (checkForUpdates env st).autoReplyResults = []) :=
  ⟨(checkForUpdates_spec env st).2.2.1, (checkForUpdates_spec env st).2.2.2.1,
   (checkForUpdates_spec env st).2.2.2.2.1⟩

/-- Witness for C3 at the 401 environment. -/
theorem c3_witness :
    "Invalid credentials" ∈ (checkForUpdates c3Env initState).state.stats.errorLog ∧
    (checkForUpdates c3Env initState).unread = [] ∧
    (checkForUpdates c3Env initState).state.stats.lastError = Option.none :=
  ⟨((c3_cycle_error_handling c3Env initState).2.2 rfl).1,
   ((c3_cycle_error_handling c3Env initState).2.2 rfl).2.1,
   (c3_cycle_error_handling c3Env initState).1⟩

/-- Counterexample to C3 as stated: in a cycle whose chat fetch fails
with an HTTP 401 (so the cycle is NOT a full success, as witnessed by the
non-empty error log), `last_error` is nevertheless None at return —
line 882 clears it unconditionally, so it is not cleared "exactly on full
success". -/
theorem c3_counterexample :
    (checkForUpdates c3Env initState).state.stats.lastError = Option.none ∧
    (checkForUpdates c3Env initState).state.stats.errorLog ≠ [] := by
  refine ⟨(checkForUpdates_spec c3Env initState).2.2.1, ?_⟩
  intro hnil
  have hmem := ((checkForUpdates_spec c3Env initState).2.2.2.2.1 rfl).1
  rw [hnil] at hmem
  exact absurd hmem (List.not_mem_nil _)

/-- C4: no message classified as a system message ever causes
`send_auto_reply` to be invoked for its chat: the dispatcher attempts
sends exactly for the non-system messages (in order), and inside a cycle
every dispatched chat id comes from a non-system unread message. -/
theorem c4_system_messages_never_dispatched (st : MonitorState)
    (msgs : List UnreadMessage) (env : Nat → SendOutcome) (cenv : CycleEnv) :
    (processAutoReplies st msgs env).2.2 =
      (msgs.filter (fun m => !m.is_system)).map (fun m => m.chat_id) ∧
    (∀ c, c ∈ (checkForUpdates cenv st).sendTrace →
      ∃ m, m ∈ (checkForUpdates cenv st).unread ∧ m.is_system = false ∧ m.chat_id = c) :=
  ⟨(processAutoReplies_spec st msgs env).2.2.2.2.1,
   (checkForUpdates_spec cenv st).2.2.2.2.2.2.2⟩

/-- Witness for C4: a batch of one system and one regular message
dispatches only the regular chat, and a concrete cycle's dispatched chat
comes from a non-system message. -/
theorem c4_witness :
    (processAutoReplies initState
      [{ chat_id := "cs", message_id := "ms", text := "api мессенджера",
         created := .str "", created_timestamp := .int 0, direction := "in",
         is_unread := true, is_system := true, user_name := "s" },
       { chat_id := "c2", message_id := "m2", text := "hello",
         created := .str "", created_timestamp := .int 0, direction := "in",
         is_unread := true, is_system := false, user_name := "u" }]
      (fun _ => .success "r")).2.2 = ["c2"] ∧
    (∃ m, m ∈ (checkForUpdates
        { unreadEnv := .ok [PyVal.dict [("id", .str "c1"),
            ("last_message", .dict [("id", .str "m1"), ("direction", .str "in")])]],
          sendEnv := fun _ => .success "r",
          pages := fun _ => .ok [],
          saveOk := true } initState).unread ∧ m.is_system = false ∧ m.chat_id = "c1") := by
  constructor
  · exact ((c4_system_messages_never_dispatched initState
      [{ chat_id := "cs", message_id := "ms", text := "api мессенджера",
         created := .str "", created_timestamp := .int 0, direction := "in",
         is_unread := true, is_system := true, user_name := "s" },
       { chat_id := "c2", message_id := "m2", text := "hello",
         created := .str "", created_timestamp := .int 0, direction := "in",
         is_unread := true, is_system := false, user_name := "u" }]
      (fun _ => .success "r") c3Env).1).trans (by decide)
  · exact (c4_system_messages_never_dispatched initState [] (fun _ => .success "r")
      { unreadEnv := .ok [PyVal.dict [("id", .str "c1"),
          ("last_message", .dict [("id", .str "m1"), ("direction", .str "in")])]],
        sendEnv := fun _ => .success "r",
        pages := fun _ => .ok [],
        saveOk := true }).2 "c1" (by decide)

/-- C10: `reset_processed_ids` clears only the processed-id set (the
reply set, the flag and the statistics are untouched), no operation ever
removes a chat id from `sent_replies`, a chat id present in
`sent_replies` survives any run of operations (resets included), and such
a chat always short-circuits `send_auto_reply`. -/
theorem c10_reset_clears_only_processed_ids (st : MonitorState) (ops : List MonOp)
    (op : MonOp) (C : String) :
    (resetProcessedIds st).processedMessageIds = [] ∧
    (resetProcessedIds st).sentReplies = st.sentReplies ∧
    (resetProcessedIds st).autoReplyEnabled = st.autoReplyEnabled ∧
    (resetProcessedIds st).stats = st.stats ∧
    (∀ x, x ∈ st.sentReplies → x ∈ (monStep st op).sentReplies) ∧
    (C ∈ st.sentReplies → C ∈ (runMon st ops).sentReplies) ∧
    (∀ u e, C ∈ st.sentReplies → sendAutoReply st C u e = (.alreadyReplied, st, false)) :=
  ⟨rfl, rfl, rfl, rfl, monStep_sent st op, runMon_sent ops st C,
   fun u e h => sendAutoReply_already u e h⟩

/-- Witness for C10: after a reset, a previously replied chat is still in
`sent_replies` and still short-circuits. -/
theorem c10_witness :
    (resetProcessedIds
      { initState with sentReplies := ["c9"], processedMessageIds := ["m"] }).sentReplies
      = ["c9"] ∧
    "c9" ∈ (runMon { initState with sentReplies := ["c9"] } [MonOp.resetOp]).sentReplies ∧
    sendAutoReply { initState with sentReplies := ["c9"] } "c9" "u" (.success "r") =
      (.alreadyReplied, { initState with sentReplies := ["c9"] }, false) :=
  ⟨(c10_reset_clears_only_processed_ids
      { initState with sentReplies := ["c9"], processedMessageIds := ["m"] }
      [] MonOp.resetOp "c9").2.1,
   (c10_reset_clears_only_processed_ids { initState with sentReplies := ["c9"] }
      [MonOp.resetOp] MonOp.resetOp "c9").2.2.2.2.2.1 (by decide),
   (c10_reset_clears_only_processed_ids { initState with sentReplies := ["c9"] }
      [] MonOp.resetOp "c9").2.2.2.2.2.2 "u" (.success "r") (by decide)⟩

end AvitoMonitor
